import Mathlib

/-!
Polaris consensus/execution bridge

A shallow embedding of the proposal bridge (`cosmos/runtime/chain/abci.go`), the
chain bridge (`cosmos/runtime/chain/chain.go`) and the engine-facing payload
insertion (`eth/eth.go`).

Go code that mutates shared objects is modelled by explicit state passing over a
world type `σ`.  Every call a function makes to a collaborator is appended to a
trace of `Call` events, so that "is never called" and "is called once" are
statements about the trace.  A Go run-time panic is the `Outcome.panicked`
result.  Collaborators that live outside the embedded files (the host
application, the go-ethereum chain object and library functions) are fields of
parameter structures; the embedded functions are generic in them.  Logging calls
have no effect on control flow or state and are left out.
-/

namespace Polaris

/-! ## Data model -/

/-- Opaque byte strings (`[]byte`). -/
abbrev Bytes := List Nat

/-- Go `error` values; `Option Error` is an `error` that may be `nil`. -/
abbrev Error := String

/-- The type `common.Hash`. -/
abbrev Hash := Nat

/-- Enumeration `abci.ResponseProcessProposal_ProposalStatus`. -/
inductive ProposalStatus where
  | UNKNOWN
  | ACCEPT
  | REJECT
deriving DecidableEq, Repr

/-- Message `abci.ResponseProcessProposal`. -/
structure ResponseProcessProposal where
  Status : ProposalStatus
deriving DecidableEq, Repr

/-- Message `abci.RequestProcessProposal`. -/
structure RequestProcessProposal where
  Txs : List Bytes
  ProposedLastCommit : Nat
  Misbehavior : List Nat
  Hash : Bytes
  Height : Int
  Time : Nat
  NextValidatorsHash : Bytes
  ProposerAddress : Bytes
deriving DecidableEq, Repr

/-- Message `abci.RequestFinalizeBlock`. -/
structure RequestFinalizeBlock where
  Txs : List Bytes
  DecidedLastCommit : Nat
  Misbehavior : List Nat
  Hash : Bytes
  Height : Int
  Time : Nat
  NextValidatorsHash : Bytes
  ProposerAddress : Bytes
deriving DecidableEq, Repr

/-- Gas meter of `cosmossdk.io/store/types`: a consumption counter and a limit
(`none` for the infinite meter). -/
structure GasMeter where
  limit : Option Nat
  consumed : Nat
deriving DecidableEq, Repr

/-- Constructor `storetypes.NewInfiniteGasMeter()`. -/
def NewInfiniteGasMeter : GasMeter := { limit := none, consumed := 0 }

/-- Method `GasMeter.GasConsumed`. -/
def GasMeter.GasConsumed (g : GasMeter) : Nat := g.consumed

/-- Method `GasMeter.RefundGas`: subtracts the amount from the consumed gas and
panics (`none`) when the amount exceeds it. -/
def GasMeter.RefundGas (g : GasMeter) (amount : Nat) : Option GasMeter :=
  if g.consumed < amount then none else some { g with consumed := g.consumed - amount }

/-- Struct `storetypes.GasConfig`; the zero value is `GasConfig{}`. -/
structure GasConfig where
  HasCost : Nat
  DeleteCost : Nat
  ReadCostFlat : Nat
  ReadCostPerByte : Nat
  WriteCostFlat : Nat
  WriteCostPerByte : Nat
  IterNextCostFlat : Nat
deriving DecidableEq, Repr

/-- The zero value `storetypes.GasConfig{}`. -/
def GasConfig.zero : GasConfig := ⟨0, 0, 0, 0, 0, 0, 0⟩

/-- The fields of `sdk.Context` the embedded code reads or replaces.  The two
meters are shared objects: a hook that consumes gas hands back their new
readings. -/
structure Context where
  multiStore : Nat
  blockHeight : Int
  gasMeter : GasMeter
  blockGasMeter : GasMeter
  kvGasConfig : GasConfig
  transientKVGasConfig : GasConfig
  eventManager : Nat
deriving DecidableEq, Repr

/-- Method `ctx.WithKVGasConfig`. -/
def Context.WithKVGasConfig (ctx : Context) (c : GasConfig) : Context :=
  { ctx with kvGasConfig := c }

/-- Method `ctx.WithTransientKVGasConfig`. -/
def Context.WithTransientKVGasConfig (ctx : Context) (c : GasConfig) : Context :=
  { ctx with transientKVGasConfig := c }

/-- Method `ctx.WithGasMeter`. -/
def Context.WithGasMeter (ctx : Context) (g : GasMeter) : Context :=
  { ctx with gasMeter := g }

/-- Ethereum transactions, opaque. -/
abbrev Transaction := Nat

/-- Ethereum receipts, opaque. -/
abbrev Receipt := Nat

/-- Type `types.Signer`, opaque. -/
abbrev Signer := Nat

/-- Type `params.ChainConfig`, opaque. -/
abbrev ChainConfig := Nat

/-- The fields of `types.Header` the embedded code reads. -/
structure Header where
  ParentHash : Hash
  Number : Nat
  Time : Nat
deriving DecidableEq, Repr

/-- Type `types.Block`: a header and an ordered transaction list. -/
structure Block where
  header : Header
  transactions : List Transaction
deriving DecidableEq, Repr

/-- Method `block.Header()`. -/
def Block.Header (b : Block) : Header := b.header

/-- Method `block.Transactions()`. -/
def Block.Transactions (b : Block) : List Transaction := b.transactions

/-- Struct `engine.ExecutableData`, the execution payload. -/
structure ExecutableData where
  ParentHash : Hash
  Number : Nat
  Timestamp : Nat
  Transactions : List Bytes
  BlockHash : Hash
deriving DecidableEq, Repr

/-- Struct `engine.ExecutionPayloadEnvelope`; the payload field is a pointer and
may be `nil`. -/
structure ExecutionPayloadEnvelope where
  ExecutionPayload : Option ExecutableData
deriving DecidableEq, Repr

/-- Message `evmtypes.WrappedPayloadEnvelope`: the serialized envelope. -/
structure WrappedPayloadEnvelope where
  Data : Bytes
deriving DecidableEq, Repr

/-- An `sdk.Msg`: either a `*evmtypes.WrappedPayloadEnvelope` or a message of
another type (the type switch of `ProcessProposal` tells them apart). -/
inductive Msg where
  | payloadEnvelope (env : WrappedPayloadEnvelope)
  | other (tag : Nat)
deriving DecidableEq, Repr

/-- A decoded `sdk.Tx`. -/
structure Tx where
  msgs : List Msg
deriving DecidableEq, Repr

/-- Method `sdkTx.GetMsgs()`. -/
def Tx.GetMsgs (t : Tx) : List Msg := t.msgs

/-- Type `core.Genesis`, opaque. -/
abbrev Genesis := Nat

/-- Struct `engine.PayloadStatusV1`. -/
structure PayloadStatusV1 where
  Status : String
  LatestValidHash : Option Hash
  ValidationError : Option String
deriving DecidableEq, Repr

/-- Constant `engine.VALID`. -/
def VALID : String := "VALID"

/-- Constant `engine.INVALID`. -/
def INVALID : String := "INVALID"

/-- Value `engine.STATUS_INVALID.PayloadStatus`. -/
def STATUS_INVALID : PayloadStatusV1 :=
  { Status := INVALID, LatestValidHash := none, ValidationError := none }

/-! ## Effects -/

/-- One call made to a collaborator. -/
inductive Call where
  | PreBlocker (ctx : Context) (req : RequestFinalizeBlock)
  | BeginBlocker (ctx : Context)
  | RefundGas (block : Bool) (amount : Nat)
  | TxDecode (tx : Bytes)
  | UnwrapPayload (env : WrappedPayloadEnvelope)
  | ExecutableDataToBlock (data : ExecutableData) (versionedHashes : List Hash)
      (beaconRoot : Option Hash)
  | PreparePlugins (ctx : Context)
  | WriteGenesisBlock (block : Block)
  | InsertBlockAndSetHead (block : Block)
  | InsertBlockWithoutSetHead (block : Block)
  | SetCanonical (block : Block)
  | CurrentBlock
  | hook (txs : List Transaction) (receipts : List Receipt) (signer : Signer)
deriving DecidableEq, Repr

/-- How a Go call ends: it returns a value or it panics. -/
inductive Outcome (α : Type) where
  | returned (value : α)
  | panicked (reason : String)
deriving DecidableEq, Repr

/-- The observable record of one run: the world it leaves, the calls it made in
order, and how it ended. -/
structure Run (σ α : Type) where
  state : σ
  trace : List Call
  result : Outcome α

/-- What a host hook hands back: the world, the readings of the two shared gas
meters, and its error. -/
structure HookResult (σ : Type) where
  state : σ
  gasMeter : GasMeter
  blockGasMeter : GasMeter
  err : Option Error

/-- Interface `chain.App`: the host application hooks used by the proposal bridge. -/
structure App (σ : Type) where
  PreBlocker : σ → Context → RequestFinalizeBlock → HookResult σ
  BeginBlocker : σ → Context → HookResult σ
  TxDecode : Bytes → Except Error Tx

/-- Interface `core.Blockchain`, as far as the chain bridge uses it. -/
structure Blockchain (σ : Type) where
  PreparePlugins : σ → Context → σ
  WriteGenesisBlock : σ → Block → σ × Option Error
  InsertBlockAndSetHead : σ → Block → σ × Option Error
  InsertBlockWithoutSetHead : σ → Block → σ × (List Receipt × Option Error)
  Config : σ → ChainConfig

/-- Library functions the embedded code calls: `engine.ExecutableDataToBlock`,
`types.MakeSigner`, `(*WrappedPayloadEnvelope).UnwrapPayload`, `Header.Hash`,
`(*Genesis).ToBlock`. -/
structure Lib where
  ExecutableDataToBlock : ExecutableData → List Hash → Option Hash → Except Error Block
  MakeSigner : ChainConfig → Nat → Nat → Signer
  UnwrapPayload : WrappedPayloadEnvelope → Option ExecutionPayloadEnvelope
  HeaderHash : Header → Hash
  GenesisToBlock : Genesis → Block

/-- Type `chain.PostBlockHookFn`. -/
abbrev PostBlockHookFn (σ : Type) := σ → List Transaction → List Receipt → Signer → σ

/-- Struct `chain.WrappedBlockchain`; a `nil` hook is `none`. -/
structure WrappedBlockchain (σ : Type) where
  Blockchain : Blockchain σ
  app : App σ
  hook : Option (PostBlockHookFn σ)

/-! ## Chain bridge (`cosmos/runtime/chain/chain.go`) -/

/-- Constructor `chain.New`. -/
def New {σ : Type} (chain : Blockchain σ) (app : App σ) (hook : Option (PostBlockHookFn σ)) :
    WrappedBlockchain σ :=
  { Blockchain := chain, app := app, hook := hook }

/-- Method `(*WrappedBlockchain).WriteGenesisState`. -/
def WrappedBlockchain.WriteGenesisState {σ : Type} (lib : Lib) (wbc : WrappedBlockchain σ)
    (s : σ) (ctx : Context) (genState : Genesis) : Run σ (Option Error) :=
  let s1 := wbc.Blockchain.PreparePlugins s ctx
  let block := lib.GenesisToBlock genState
  let r := wbc.Blockchain.WriteGenesisBlock s1 block
  { state := r.1
    trace := [Call.PreparePlugins ctx, Call.WriteGenesisBlock block]
    result := Outcome.returned r.2 }

/-- Method `(*WrappedBlockchain).InsertBlockAndSetHead`. -/
def WrappedBlockchain.InsertBlockAndSetHead {σ : Type} (wbc : WrappedBlockchain σ)
    (s : σ) (ctx : Context) (block : Block) : Run σ (Option Error) :=
  let s1 := wbc.Blockchain.PreparePlugins s ctx
  let r := wbc.Blockchain.InsertBlockAndSetHead s1 block
  { state := r.1
    trace := [Call.PreparePlugins ctx, Call.InsertBlockAndSetHead block]
    result := Outcome.returned r.2 }

/-- Method `(*WrappedBlockchain).InsertBlockWithoutSetHead`. -/
def WrappedBlockchain.InsertBlockWithoutSetHead {σ : Type} (wbc : WrappedBlockchain σ)
    (s : σ) (ctx : Context) (block : Block) : Run σ (List Receipt × Option Error) :=
  let s1 := wbc.Blockchain.PreparePlugins s ctx
  let r := wbc.Blockchain.InsertBlockWithoutSetHead s1 block
  { state := r.1
    trace := [Call.PreparePlugins ctx, Call.InsertBlockWithoutSetHead block]
    result := Outcome.returned r.2 }

/-! ## Proposal bridge (`cosmos/runtime/chain/abci.go`) -/

/-- The value returned with status `REJECT` and the given error. -/
def reject (err : Error) : Outcome (Option ResponseProcessProposal × Option Error) :=
  Outcome.returned (some { Status := ProposalStatus.REJECT }, some err)

/-- The value returned with status `ACCEPT` and a `nil` error. -/
def accept : Outcome (Option ResponseProcessProposal × Option Error) :=
  Outcome.returned (some { Status := ProposalStatus.ACCEPT }, none)

/-- The request handed to `PreBlocker` (abci.go lines 46-53): six fields are
copied from the proposal, the others keep their zero value. -/
def finalizeRequest (req : RequestProcessProposal) : RequestFinalizeBlock :=
  { Txs := req.Txs
    DecidedLastCommit := 0
    Misbehavior := req.Misbehavior
    Hash := []
    Height := req.Height
    Time := req.Time
    NextValidatorsHash := req.NextValidatorsHash
    ProposerAddress := req.ProposerAddress }

/-- The context after a hook ran: same value, the shared meters at their new readings. -/
def Context.afterHook {σ : Type} (ctx : Context) (r : HookResult σ) : Context :=
  { ctx with gasMeter := r.gasMeter, blockGasMeter := r.blockGasMeter }

/-- Lines 65-67 of abci.go: zero gas configurations and a fresh infinite meter. -/
def unmetered (ctx : Context) : Context :=
  ((ctx.WithKVGasConfig GasConfig.zero).WithTransientKVGasConfig GasConfig.zero).WithGasMeter
    NewInfiniteGasMeter

/-- The inner loop of abci.go lines 81-86 over the messages of one transaction:
at the first message of type `*WrappedPayloadEnvelope` the variable `envelope`
is assigned the unwrapped payload and the loop is left. -/
def scanMsgs (lib : Lib) (envelope : Option ExecutionPayloadEnvelope) :
    List Msg → Option ExecutionPayloadEnvelope × List Call
  | [] => (envelope, [])
  | Msg.payloadEnvelope env :: _ => (lib.UnwrapPayload env, [Call.UnwrapPayload env])
  | Msg.other _ :: rest => scanMsgs lib envelope rest

/-- The outer loop of abci.go lines 71-87 over the transactions of the proposal,
started with the current value of the variable `envelope`: a transaction that
fails to decode is passed over (`continue`), a decoded one runs the inner loop. -/
def scanTxs {σ : Type} (lib : Lib) (app : App σ) :
    Option ExecutionPayloadEnvelope → List Bytes → Option ExecutionPayloadEnvelope × List Call
  | envelope, [] => (envelope, [])
  | envelope, tx :: txs =>
    match app.TxDecode tx with
    | Except.error _ =>
      let r := scanTxs lib app envelope txs
      (r.1, Call.TxDecode tx :: r.2)
    | Except.ok sdkTx =>
      let m := scanMsgs lib envelope sdkTx.GetMsgs
      let r := scanTxs lib app m.1 txs
      (r.1, Call.TxDecode tx :: (m.2 ++ r.2))

/-- Lines 89-127 of abci.go: what `ProcessProposal` does with the value of
`envelope` once the scan is over. -/
def processEnvelope {σ : Type} (lib : Lib) (wbc : WrappedBlockchain σ) (s : σ) (ctx : Context)
    (envelope : Option ExecutionPayloadEnvelope) :
    Run σ (Option ResponseProcessProposal × Option Error) :=
  match envelope with
  | none => { state := s, trace := [], result := accept }
  | some envelope =>
    match envelope.ExecutionPayload with
    | none =>
      { state := s, trace := [], result := Outcome.panicked "nil pointer dereference" }
    | some payload =>
      match lib.ExecutableDataToBlock payload [] none with
      | Except.error err =>
        { state := s, trace := [Call.ExecutableDataToBlock payload [] none], result := reject err }
      | Except.ok block =>
        let ins := wbc.InsertBlockWithoutSetHead s ctx block
        match ins.result with
        | Outcome.panicked reason =>
          { state := ins.state
            trace := Call.ExecutableDataToBlock payload [] none :: ins.trace
            result := Outcome.panicked reason }
        | Outcome.returned (_, some err) =>
          { state := ins.state
            trace := Call.ExecutableDataToBlock payload [] none :: ins.trace
            result := reject err }
        | Outcome.returned (receipts, none) =>
          match wbc.hook with
          | none =>
            { state := ins.state
              trace := Call.ExecutableDataToBlock payload [] none :: ins.trace
              result := accept }
          | some hook =>
            let header := block.Header
            let signer := lib.MakeSigner (wbc.Blockchain.Config ins.state) header.Number header.Time
            { state := hook ins.state block.Transactions receipts signer
              trace := Call.ExecutableDataToBlock payload [] none ::
                (ins.trace ++ [Call.hook block.Transactions receipts signer])
              result := accept }

/-- Method `(*WrappedBlockchain).ProcessProposal`. -/
def WrappedBlockchain.ProcessProposal {σ : Type} (lib : Lib) (wbc : WrappedBlockchain σ)
    (s : σ) (ctx : Context) (req : RequestProcessProposal) :
    Run σ (Option ResponseProcessProposal × Option Error) :=
  let fin := finalizeRequest req
  let pre := wbc.app.PreBlocker s ctx fin
  match pre.err with
  | some err =>
    { state := pre.state, trace := [Call.PreBlocker ctx fin], result := reject err }
  | none =>
    let ctx1 := ctx.afterHook pre
    let beg := wbc.app.BeginBlocker pre.state ctx1
    match beg.err with
    | some err =>
      { state := beg.state
        trace := [Call.PreBlocker ctx fin, Call.BeginBlocker ctx1]
        result := reject err }
    | none =>
      let ctx2 := ctx1.afterHook beg
      -- lines 63-64: refund to each meter what it reports as consumed
      match ctx2.gasMeter.RefundGas ctx2.gasMeter.GasConsumed with
      | none =>
        { state := beg.state
          trace := [Call.PreBlocker ctx fin, Call.BeginBlocker ctx1,
            Call.RefundGas false ctx2.gasMeter.GasConsumed]
          result := Outcome.panicked "negative gas consumed" }
      | some gm =>
        match ctx2.blockGasMeter.RefundGas ctx2.blockGasMeter.GasConsumed with
        | none =>
          { state := beg.state
            trace := [Call.PreBlocker ctx fin, Call.BeginBlocker ctx1,
              Call.RefundGas false ctx2.gasMeter.GasConsumed,
              Call.RefundGas true ctx2.blockGasMeter.GasConsumed]
            result := Outcome.panicked "negative gas consumed" }
        | some bgm =>
          let ctx3 : Context := { ctx2 with gasMeter := gm, blockGasMeter := bgm }
          let ctx4 := unmetered ctx3
          let scan := scanTxs lib wbc.app none req.Txs
          let fin2 := processEnvelope lib wbc beg.state ctx4 scan.1
          { state := fin2.state
            trace := [Call.PreBlocker ctx fin, Call.BeginBlocker ctx1,
              Call.RefundGas false ctx2.gasMeter.GasConsumed,
              Call.RefundGas true ctx2.blockGasMeter.GasConsumed] ++ scan.2 ++ fin2.trace
            result := fin2.result }

/-! ## Execution engine adapter (`eth/eth.go`) -/

/-- The methods of `*gethcore.BlockChain` that `eth.go` calls. -/
structure GethBlockChain (σ : Type) where
  InsertBlockWithoutSetHead : σ → Block → σ × Option Error
  SetCanonical : σ → Block → σ × (Hash × Option Error)
  CurrentBlock : σ → Header
  Config : σ → ChainConfig
  GetBlockByNumber : σ → Nat → Option Block

/-- Struct `eth.ExecutionLayer`, reduced to the chain of its backend. -/
structure ExecutionLayer (σ : Type) where
  backend : GethBlockChain σ

/-- Method `(*ExecutionLayer).Blockchain`. -/
def ExecutionLayer.Blockchain {σ : Type} (el : ExecutionLayer σ) : GethBlockChain σ := el.backend

/-- Method `block.Hash()`: the hash of the block header. -/
def Block.Hash (lib : Lib) (b : Block) : Hash := lib.HeaderHash b.Header

/-- Method `(*ExecutionLayer).NewPayloadV3`. -/
def ExecutionLayer.NewPayloadV3 {σ : Type} (lib : Lib) (el : ExecutionLayer σ) (s : σ)
    (params : ExecutableData) (versionedHashes : List Hash) (beaconRoot : Option Hash) :
    Run σ (PayloadStatusV1 × Option Error) :=
  match lib.ExecutableDataToBlock params versionedHashes beaconRoot with
  | Except.error err =>
    { state := s
      trace := [Call.ExecutableDataToBlock params versionedHashes beaconRoot]
      result := Outcome.returned (STATUS_INVALID, some err) }
  | Except.ok block =>
    let ins := el.Blockchain.InsertBlockWithoutSetHead s block
    match ins.2 with
    | some err =>
      { state := ins.1
        trace := [Call.ExecutableDataToBlock params versionedHashes beaconRoot,
          Call.InsertBlockWithoutSetHead block]
        result := Outcome.returned (STATUS_INVALID, some err) }
    | none =>
      let can := el.Blockchain.SetCanonical ins.1 block
      match can.2.2 with
      | some err =>
        { state := can.1
          trace := [Call.ExecutableDataToBlock params versionedHashes beaconRoot,
            Call.InsertBlockWithoutSetHead block, Call.SetCanonical block]
          result := Outcome.returned (STATUS_INVALID, some err) }
      | none =>
        let insertedHash := lib.HeaderHash (el.Blockchain.CurrentBlock can.1)
        { state := can.1
          trace := [Call.ExecutableDataToBlock params versionedHashes beaconRoot,
            Call.InsertBlockWithoutSetHead block, Call.SetCanonical block, Call.CurrentBlock]
          result := Outcome.returned
            ({ Status := VALID, LatestValidHash := some insertedHash, ValidationError := none },
              none) }

/-- Method `(*ExecutionLayer).Config`. -/
def ExecutionLayer.Config {σ : Type} (el : ExecutionLayer σ) (s : σ) : ChainConfig :=
  el.Blockchain.Config s

/-- Method `(*ExecutionLayer).GetBlockByNumber`. -/
def ExecutionLayer.GetBlockByNumber {σ : Type} (el : ExecutionLayer σ) (s : σ) (num : Nat) :
    Option Block :=
  el.Blockchain.GetBlockByNumber s num

/-! ## Vocabulary for the statements -/

/-- What `PreBlocker` hands back in a `ProcessProposal` call. -/
def afterPreBlocker {σ : Type} (wbc : WrappedBlockchain σ) (s : σ) (ctx : Context)
    (req : RequestProcessProposal) : HookResult σ :=
  wbc.app.PreBlocker s ctx (finalizeRequest req)

/-- What `BeginBlocker` hands back in a `ProcessProposal` call, when it is reached. -/
def afterBeginBlocker {σ : Type} (wbc : WrappedBlockchain σ) (s : σ) (ctx : Context)
    (req : RequestProcessProposal) : HookResult σ :=
  wbc.app.BeginBlocker (afterPreBlocker wbc s ctx req).state
    (ctx.afterHook (afterPreBlocker wbc s ctx req))

/-- The prelude replay succeeds: both hooks return a `nil` error. -/
def preludeSucceeds {σ : Type} (wbc : WrappedBlockchain σ) (s : σ) (ctx : Context)
    (req : RequestProcessProposal) : Prop :=
  (afterPreBlocker wbc s ctx req).err = none ∧ (afterBeginBlocker wbc s ctx req).err = none

/-- The context in force after the prelude: the request context with the meters
at the readings the two hooks left. -/
def preludeContext {σ : Type} (wbc : WrappedBlockchain σ) (s : σ) (ctx : Context)
    (req : RequestProcessProposal) : Context :=
  (ctx.afterHook (afterPreBlocker wbc s ctx req)).afterHook (afterBeginBlocker wbc s ctx req)

/-- The context with both meters refunded to zero consumed gas. -/
def Context.refunded (ctx : Context) : Context :=
  { ctx with
    gasMeter := { ctx.gasMeter with consumed := 0 }
    blockGasMeter := { ctx.blockGasMeter with consumed := 0 } }

/-- The context handed to the chain bridge for the insertion. -/
def insertionContext {σ : Type} (wbc : WrappedBlockchain σ) (s : σ) (ctx : Context)
    (req : RequestProcessProposal) : Context :=
  unmetered (preludeContext wbc s ctx req).refunded

/-- The calls of the prelude and of the gas refund, in order. -/
def preludeTrace {σ : Type} (wbc : WrappedBlockchain σ) (s : σ) (ctx : Context)
    (req : RequestProcessProposal) : List Call :=
  [Call.PreBlocker ctx (finalizeRequest req),
   Call.BeginBlocker (ctx.afterHook (afterPreBlocker wbc s ctx req)),
   Call.RefundGas false (preludeContext wbc s ctx req).gasMeter.GasConsumed,
   Call.RefundGas true (preludeContext wbc s ctx req).blockGasMeter.GasConsumed]

/-- The value of the variable `envelope` when the scan of `ProcessProposal` is over. -/
def selectedEnvelope {σ : Type} (lib : Lib) (wbc : WrappedBlockchain σ)
    (req : RequestProcessProposal) : Option ExecutionPayloadEnvelope :=
  (scanTxs lib wbc.app none req.Txs).1

/-- The calls made by the scan of `ProcessProposal`. -/
def scanTrace {σ : Type} (lib : Lib) (wbc : WrappedBlockchain σ)
    (req : RequestProcessProposal) : List Call :=
  (scanTxs lib wbc.app none req.Txs).2

/-- A call to `engine.ExecutableDataToBlock`. -/
def Call.isConversion : Call → Bool
  | Call.ExecutableDataToBlock _ _ _ => true
  | _ => false

/-- A call into the chain object: plugin preparation, genesis write, insertion or
canonicalization. -/
def Call.isChainCall : Call → Bool
  | Call.PreparePlugins _ => true
  | Call.WriteGenesisBlock _ => true
  | Call.InsertBlockAndSetHead _ => true
  | Call.InsertBlockWithoutSetHead _ => true
  | Call.SetCanonical _ => true
  | _ => false

/-- An invocation of the post-block hook. -/
def Call.isHook : Call → Bool
  | Call.hook _ _ _ => true
  | _ => false

/-- The blocks handed to `InsertBlockWithoutSetHead`, in call order. -/
def insertedBlocks : List Call → List Block
  | [] => []
  | Call.InsertBlockWithoutSetHead b :: rest => b :: insertedBlocks rest
  | _ :: rest => insertedBlocks rest

/-- The payloads handed to `ExecutableDataToBlock`, in call order. -/
def convertedPayloads : List Call → List ExecutableData
  | [] => []
  | Call.ExecutableDataToBlock d _ _ :: rest => d :: convertedPayloads rest
  | _ :: rest => convertedPayloads rest

/-- The post-block hook invocations, in call order. -/
def hookCalls (t : List Call) : List Call := t.filter Call.isHook

/-- The transaction carries a payload-envelope message: it decodes and one of its
messages is a `WrappedPayloadEnvelope`. -/
def carriesEnvelope {σ : Type} (app : App σ) (tx : Bytes) : Prop :=
  ∃ sdkTx env, app.TxDecode tx = Except.ok sdkTx ∧ Msg.payloadEnvelope env ∈ sdkTx.GetMsgs

/-! ## A small concrete world

Concrete collaborators on which the embedded functions can be evaluated. -/

/-- A world with a block store, a canonical head, the context last given to the
plugins and a log of post-block hook invocations. -/
structure SampleWorld where
  store : List Block
  head : Header
  pluginCtx : Option Context
  hooked : List (List Transaction × List Receipt × Signer)
deriving DecidableEq, Repr

/-- The genesis header of the sample world. -/
def sampleGenesis : Header := { ParentHash := 0, Number := 0, Time := 0 }

/-- The initial sample world. -/
def sampleWorld : SampleWorld :=
  { store := [], head := sampleGenesis, pluginCtx := none, hooked := [] }

/-- A request context with finite meters that already carry some consumption. -/
def sampleCtx : Context :=
  { multiStore := 1
    blockHeight := 7
    gasMeter := { limit := some 1000, consumed := 4 }
    blockGasMeter := { limit := some 5000, consumed := 9 }
    kvGasConfig := ⟨1000, 1000, 1000, 3, 2000, 30, 30⟩
    transientKVGasConfig := ⟨100, 100, 100, 0, 200, 3, 3⟩
    eventManager := 0 }

/-- Sample decoder: an empty byte string or one starting with `0` fails to
decode; otherwise every further byte is one message, an odd byte a payload
envelope holding that byte, an even byte an ordinary message. -/
def sampleTxDecode : Bytes → Except Error Tx
  | [] => Except.error "empty transaction"
  | 0 :: _ => Except.error "not a transaction"
  | _ :: body =>
    Except.ok
      { msgs := body.map fun b =>
          if b % 2 = 1 then Msg.payloadEnvelope { Data := [b] } else Msg.other b }

/-- Sample host application: each hook fails with the given error, if any, and
consumes some gas. -/
def sampleApp (preErr beginErr : Option Error) : App SampleWorld :=
  { PreBlocker := fun s ctx _ =>
      { state := s
        gasMeter := { ctx.gasMeter with consumed := ctx.gasMeter.consumed + 7 }
        blockGasMeter := ctx.blockGasMeter
        err := preErr }
    BeginBlocker := fun s ctx =>
      { state := s
        gasMeter := ctx.gasMeter
        blockGasMeter := { ctx.blockGasMeter with consumed := ctx.blockGasMeter.consumed + 3 }
        err := beginErr }
    TxDecode := sampleTxDecode }

/-- Sample payload: number, timestamp and block hash are all `n`. -/
def samplePayload (n : Nat) : ExecutableData :=
  { ParentHash := 0, Number := n, Timestamp := n, Transactions := [[n]], BlockHash := n }

/-- Sample block: what the sample conversion makes of `samplePayload n`. -/
def sampleBlock (n : Nat) : Block :=
  { header := { ParentHash := 0, Number := n, Time := n }, transactions := [1] }

/-- Sample library: data `[1]` unwraps to an envelope without payload, empty
data and data `[7]` fail to unwrap (nil envelope), any other data unwraps to the
payload numbered by its first byte; conversion fails on block hash `99`. -/
def sampleLib : Lib :=
  { ExecutableDataToBlock := fun d _ _ =>
      if d.BlockHash = 99 then Except.error "blockhash mismatch"
      else Except.ok
        { header := { ParentHash := d.ParentHash, Number := d.Number, Time := d.Timestamp }
          transactions := d.Transactions.map List.length }
    MakeSigner := fun config number time => config + number + time
    UnwrapPayload := fun env =>
      match env.Data with
      | [] => none
      | [7] => none
      | [1] => some { ExecutionPayload := none }
      | b :: _ => some { ExecutionPayload := some (samplePayload b) }
    HeaderHash := fun h => 1000 * h.Number + h.Time + 1
    GenesisToBlock := fun g => { header := { ParentHash := 0, Number := 0, Time := g }
                                 transactions := [] } }

/-- Sample chain object behind the chain bridge: insertion refuses block number
`13`, stores every other block and returns one receipt per transaction. -/
def sampleChain : Blockchain SampleWorld :=
  { PreparePlugins := fun s ctx => { s with pluginCtx := some ctx }
    WriteGenesisBlock := fun s b => ({ s with store := [b], head := b.header }, none)
    InsertBlockAndSetHead := fun s b =>
      if b.header.Number = 13 then (s, some "invalid block")
      else ({ s with store := b :: s.store, head := b.header }, none)
    InsertBlockWithoutSetHead := fun s b =>
      if b.header.Number = 13 then (s, ([], some "invalid block"))
      else ({ s with store := b :: s.store }, (b.transactions.map fun t => t + 100, none))
    Config := fun _ => 80085 }

/-- Sample post-block hook: logs its arguments in the world. -/
def sampleHook : PostBlockHookFn SampleWorld :=
  fun s txs receipts signer => { s with hooked := s.hooked ++ [(txs, receipts, signer)] }

/-- Sample chain bridge with the hook configured. -/
def sampleWbc (preErr beginErr : Option Error) : WrappedBlockchain SampleWorld :=
  New sampleChain (sampleApp preErr beginErr) (some sampleHook)

/-- Sample chain bridge without a hook. -/
def sampleWbcNoHook : WrappedBlockchain SampleWorld :=
  New sampleChain (sampleApp none none) none

/-- Sample engine chain: insertion refuses block number `13`; canonicalization
refuses block number `17` and blocks that are not stored. -/
def sampleEngine : GethBlockChain SampleWorld :=
  { InsertBlockWithoutSetHead := fun s b =>
      if b.header.Number = 13 then (s, some "invalid block")
      else ({ s with store := b :: s.store }, none)
    SetCanonical := fun s b =>
      if b.header.Number = 17 ∨ b ∉ s.store then (s, (0, some "cannot set canonical"))
      else ({ s with head := b.header }, (1000 * b.header.Number + b.header.Time + 1, none))
    CurrentBlock := fun s => s.head
    Config := fun _ => 80085
    GetBlockByNumber := fun s n => s.store.find? fun b => b.header.Number = n }

/-- Sample execution layer. -/
def sampleEL : ExecutionLayer SampleWorld := { backend := sampleEngine }

/-- A proposal with the given transactions. -/
def sampleReq (txs : List Bytes) : RequestProcessProposal :=
  { Txs := txs
    ProposedLastCommit := 0
    Misbehavior := []
    Hash := [5]
    Height := 7
    Time := 1700
    NextValidatorsHash := [6]
    ProposerAddress := [8] }

/-! ## Vocabulary for the scan -/

/-- The transaction decodes. -/
def decodes {σ : Type} (app : App σ) (tx : Bytes) : Bool :=
  match app.TxDecode tx with
  | Except.ok _ => true
  | Except.error _ => false

/-- The first message of type `*WrappedPayloadEnvelope` among the messages of
one transaction, if there is one. -/
def firstEnvelopeMsg : List Msg → Option WrappedPayloadEnvelope
  | [] => none
  | Msg.payloadEnvelope env :: _ => some env
  | Msg.other _ :: rest => firstEnvelopeMsg rest

/-- The first envelope message of a transaction given as bytes: none when the
transaction fails to decode or holds no envelope message. -/
def envelopeMsgOf {σ : Type} (app : App σ) (tx : Bytes) : Option WrappedPayloadEnvelope :=
  match app.TxDecode tx with
  | Except.ok sdkTx => firstEnvelopeMsg sdkTx.GetMsgs
  | Except.error _ => none

/-- In transaction order, the first envelope message of every decodable
transaction that holds one. -/
def envelopeMsgs {σ : Type} (app : App σ) (txs : List Bytes) : List WrappedPayloadEnvelope :=
  txs.filterMap (envelopeMsgOf app)

/-- The envelope described as "last transaction wins, first message within it":
the unwrapped payload of the last entry of `envelopeMsgs`, nil when there is
none. -/
def lastEnvelope {σ : Type} (lib : Lib) (app : App σ) (txs : List Bytes) :
    Option ExecutionPayloadEnvelope :=
  match (envelopeMsgs app txs).getLast? with
  | none => none
  | some env => lib.UnwrapPayload env

/-- The byte strings handed to `TxDecode`, in call order. -/
def decodedTxs : List Call → List Bytes
  | [] => []
  | Call.TxDecode tx :: rest => tx :: decodedTxs rest
  | _ :: rest => decodedTxs rest

/-- The contexts handed to `PreparePlugins`, in call order. -/
def preparedContexts : List Call → List Context
  | [] => []
  | Call.PreparePlugins ctx :: rest => ctx :: preparedContexts rest
  | _ :: rest => preparedContexts rest

/-! ## Runtime coordinator (`cosmos/runtime/runtime.go`) -/

/-- Conversion `int64(x)` of a `uint64` value: two's complement wrap-around. -/
def int64OfUint64 (x : Nat) : Int :=
  if x % 2 ^ 64 < 2 ^ 63 then ((x % 2 ^ 64 : Nat) : Int) else ((x % 2 ^ 64 : Nat) : Int) - 2 ^ 64

/-- The zero value `sdk.Context{}`; its nil meters are rendered as empty meters
of limit zero. -/
def Context.zero : Context :=
  { multiStore := 0
    blockHeight := 0
    gasMeter := { limit := some 0, consumed := 0 }
    blockGasMeter := { limit := some 0, consumed := 0 }
    kvGasConfig := GasConfig.zero
    transientKVGasConfig := GasConfig.zero
    eventManager := 0 }

/-- Method `ctx.WithMultiStore`. -/
def Context.WithMultiStore (ctx : Context) (ms : Nat) : Context :=
  { ctx with multiStore := ms }

/-- Method `ctx.WithBlockHeight`. -/
def Context.WithBlockHeight (ctx : Context) (height : Int) : Context :=
  { ctx with blockHeight := height }

/-- Method `ctx.WithBlockGasMeter`. -/
def Context.WithBlockGasMeter (ctx : Context) (g : GasMeter) : Context :=
  { ctx with blockGasMeter := g }

/-- Method `ctx.WithEventManager`. -/
def Context.WithEventManager (ctx : Context) (em : Nat) : Context :=
  { ctx with eventManager := em }

/-- Constructor `sdk.NewEventManager()`: a fresh event manager (`0` is nil). -/
def NewEventManager : Nat := 1

namespace Runtime

/-- References to collaborator objects, opaque. -/
abbrev Handle := Nat

/-- Pointers to runtime objects (`*Polaris`). -/
abbrev Ptr := Nat

/-- The address `&p.blockBuilderMu`: the lock field of the runtime object that
`owner` points to. -/
structure LockRef where
  owner : Ptr
deriving DecidableEq, Repr

/-- A `sync.RWMutex` value; the zero value is an unlocked mutex. -/
structure RWMutex where
  writer : Bool
  readers : Nat
deriving DecidableEq, Repr

/-- The zero value of `sync.RWMutex`. -/
def RWMutex.zero : RWMutex := { writer := false, readers := 0 }

/-- The fields of `eth.Config` that `runtime.go` reads. -/
structure Config where
  PriceLimit : Nat
  Lifetime : Int
  AllowUnprotectedTxs : Bool
deriving DecidableEq, Repr

/-- Struct `runtime.Polaris`: the object a `*Polaris` points to.  Pointer fields
that `New` leaves nil are `none`. -/
structure Polaris where
  ExecutionLayer : Handle
  ProposalProvider : Option Handle
  WrappedMiner : Option Handle
  WrappedTxPool : Option Handle
  WrappedBlockchain : Option Handle
  logger : Handle
  blockBuilderMu : RWMutex
deriving DecidableEq, Repr

/-- One call made by the runtime coordinator to a collaborator. -/
inductive RuntimeCall where
  | CommitMultiStore
  | HostSetLatestQueryContext (ctx : Context)
  | ethNew (client : String) (allowUnprotectedTxs : Bool)
  | txpoolNew (chain pool : Handle) (lifetime : Int) (lock : LockRef) (priceLimit : Nat)
  | minerNew (miner allowedValMsgs chain : Handle) (lock : LockRef)
  | chainNew (chain hook : Handle)
  | NewProposalProvider (prepareProposal : Handle) (miner chain : Option Handle)
  | SetMempool (pool : Option Handle)
  | SetPrepareProposal (provider : Handle)
  | SetProcessProposal (provider : Handle)
  | Setup (chain pool : Option Handle)
  | NewAnteHandler (pool : Option Handle) (cosmHandler : Handle)
  | SetAnteHandler (handler : Handle)
  | minerInit (miner : Option Handle)
  | txpoolInit (pool : Option Handle)
  | RegisterLifecycle (lc : Option Handle)
  | RegisterSyncStatusProvider
  | goStart
  | SetLatestQueryContext (ctx : Context)
  | PrimePlugins (ctx : Context)
  | LoadLastState (appHeight : Nat)
deriving DecidableEq, Repr

/-- The collaborators of the runtime coordinator: the host application and EVM
keeper, the execution layer and its backend, and the constructors of the
wrappers.  Constructors and getters are pure; the others act on the world. -/
structure Env (σ : Type) where
  CommitMultiStore : σ → Nat
  HostSetLatestQueryContext : σ → Context → σ
  ethNew : σ → String → Config → Bool → σ × Except Error Handle
  Blockchain : Handle → Handle
  TxPool : Handle → Handle
  Miner : Handle → Handle
  txpoolNew : Handle → Handle → Int → LockRef → Nat → Handle
  minerNew : Handle → Handle → Handle → LockRef → Handle
  chainNew : Handle → Handle → Handle
  NewProposalProvider : Handle → Option Handle → Option Handle → Handle
  SetMempool : σ → Option Handle → σ
  SetPrepareProposal : σ → Handle → σ
  SetProcessProposal : σ → Handle → σ
  Setup : σ → Option Handle → Option Handle → σ × Option Error
  NewAnteHandler : Option Handle → Handle → Handle
  SetAnteHandler : σ → Handle → σ
  minerInit : σ → Option Handle → Handle → σ
  txpoolInit : σ → Option Handle → Handle → σ
  RegisterLifecycle : σ → Option Handle → σ
  RegisterSyncStatusProvider : σ → Handle → σ
  SetLatestQueryContext : σ → Handle → Context → σ
  PrimePlugins : σ → Handle → Context → σ
  LoadLastState : σ → Handle → Nat → σ × Option Error

/-- The record of a call of `New`: the world it leaves, its calls, and the
object behind the returned pointer (or the panic). -/
structure NewRun (σ : Type) where
  world : σ
  trace : List RuntimeCall
  result : Outcome Polaris

/-- The record of a method call on a `*Polaris`: the world and the object it
leaves, its calls, and how it ended. -/
structure MethodRun (σ α : Type) where
  world : σ
  self : Polaris
  trace : List RuntimeCall
  result : Outcome α

/-- The query context built by `New` (runtime.go lines 112-117). -/
def initialContext (cms : Nat) : Context :=
  ((((Context.zero.WithMultiStore cms).WithBlockHeight 0).WithGasMeter
    NewInfiniteGasMeter).WithBlockGasMeter NewInfiniteGasMeter).WithEventManager NewEventManager

/-- Function `runtime.New`, allocating the runtime object at pointer `p`. -/
def New {σ : Type} (env : Env σ) (p : Ptr) (s : σ) (cfg : Config) (logger : Handle) :
    NewRun σ :=
  let ctx := initialContext (env.CommitMultiStore s)
  let s1 := env.HostSetLatestQueryContext s ctx
  let r := env.ethNew s1 "geth" cfg cfg.AllowUnprotectedTxs
  match r.2 with
  | Except.error err =>
    { world := r.1
      trace := [RuntimeCall.CommitMultiStore, RuntimeCall.HostSetLatestQueryContext ctx,
        RuntimeCall.ethNew "geth" cfg.AllowUnprotectedTxs]
      result := Outcome.panicked err }
  | Except.ok el =>
    let priceLimit := cfg.PriceLimit
    let pool := env.txpoolNew (env.Blockchain el) (env.TxPool el) cfg.Lifetime
      { owner := p } priceLimit
    { world := r.1
      trace := [RuntimeCall.CommitMultiStore, RuntimeCall.HostSetLatestQueryContext ctx,
        RuntimeCall.ethNew "geth" cfg.AllowUnprotectedTxs,
        RuntimeCall.txpoolNew (env.Blockchain el) (env.TxPool el) cfg.Lifetime
          { owner := p } priceLimit]
      result := Outcome.returned
        { ExecutionLayer := el
          ProposalProvider := none
          WrappedMiner := none
          WrappedTxPool := some pool
          WrappedBlockchain := none
          logger := logger
          blockBuilderMu := RWMutex.zero } }

/-- Method `(*Polaris).Build` on the object `self` at pointer `p`. -/
def Polaris.Build {σ : Type} (env : Env σ) (p : Ptr) (self : Polaris) (s : σ)
    (cosmHandler allowedValMsgs hook prepareProposal : Handle) : MethodRun σ (Option Error) :=
  let chain := env.Blockchain self.ExecutionLayer
  let miner := env.minerNew (env.Miner self.ExecutionLayer) allowedValMsgs chain { owner := p }
  let wbc := env.chainNew chain hook
  let self1 := { self with WrappedMiner := some miner, WrappedBlockchain := some wbc }
  let provider := env.NewProposalProvider prepareProposal self1.WrappedMiner
    self1.WrappedBlockchain
  let self2 := { self1 with ProposalProvider := some provider }
  let s1 := env.SetMempool s self2.WrappedTxPool
  let s2 := env.SetPrepareProposal s1 provider
  let s3 := env.SetProcessProposal s2 provider
  let r := env.Setup s3 self2.WrappedBlockchain self2.WrappedTxPool
  let calls :=
    [RuntimeCall.minerNew (env.Miner self.ExecutionLayer) allowedValMsgs chain { owner := p },
     RuntimeCall.chainNew chain hook,
     RuntimeCall.NewProposalProvider prepareProposal self1.WrappedMiner self1.WrappedBlockchain,
     RuntimeCall.SetMempool self2.WrappedTxPool,
     RuntimeCall.SetPrepareProposal provider,
     RuntimeCall.SetProcessProposal provider,
     RuntimeCall.Setup self2.WrappedBlockchain self2.WrappedTxPool]
  match r.2 with
  | some err => { world := r.1, self := self2, trace := calls, result := Outcome.returned (some err) }
  | none =>
    let handler := env.NewAnteHandler self2.WrappedTxPool cosmHandler
    { world := env.SetAnteHandler r.1 handler
      self := self2
      trace := calls ++ [RuntimeCall.NewAnteHandler self2.WrappedTxPool cosmHandler,
        RuntimeCall.SetAnteHandler handler]
      result := Outcome.returned none }

/-- Method `(*Polaris).RegisterLifecycles`. -/
def Polaris.RegisterLifecycles {σ : Type} (env : Env σ) (self : Polaris) :
    σ → List (Option Handle) → σ × List RuntimeCall
  | s, [] => (s, [])
  | s, lc :: lcs =>
    let r := Polaris.RegisterLifecycles env self (env.RegisterLifecycle s lc) lcs
    (r.1, RuntimeCall.RegisterLifecycle lc :: r.2)

/-- Method `(*Polaris).StartServices`: the start of the execution layer is
handed to a new goroutine and `nil` is returned at once. -/
def Polaris.StartServices {σ : Type} (self : Polaris) (s : σ) : MethodRun σ (Option Error) :=
  { world := s, self := self, trace := [RuntimeCall.goStart], result := Outcome.returned none }

/-- Method `(*Polaris).SetupServices`. -/
def Polaris.SetupServices {σ : Type} (env : Env σ) (self : Polaris) (s : σ)
    (clientCtx : Handle) : MethodRun σ (Option Error) :=
  let s1 := env.minerInit s self.WrappedMiner clientCtx
  let s2 := env.txpoolInit s1 self.WrappedTxPool clientCtx
  let reg := self.RegisterLifecycles env s2 [self.WrappedTxPool]
  let s3 := env.RegisterSyncStatusProvider reg.1 clientCtx
  let start := self.StartServices s3
  { world := start.world
    self := start.self
    trace := [RuntimeCall.minerInit self.WrappedMiner, RuntimeCall.txpoolInit self.WrappedTxPool] ++
      reg.2 ++ [RuntimeCall.RegisterSyncStatusProvider] ++ start.trace
    result := start.result }

/-- The query context built by `LoadLastState` (runtime.go lines 224-228). -/
def lastStateContext (cms : Nat) (appHeight : Nat) : Context :=
  ((((Context.zero.WithMultiStore cms).WithBlockHeight (int64OfUint64 appHeight)).WithGasMeter
    NewInfiniteGasMeter).WithBlockGasMeter NewInfiniteGasMeter).WithEventManager NewEventManager

/-- Method `(*Polaris).LoadLastState`; `appHeight` is a `uint64`. -/
def Polaris.LoadLastState {σ : Type} (env : Env σ) (self : Polaris) (s : σ) (cms : Nat)
    (appHeight : Nat) : MethodRun σ (Option Error) :=
  let cmsCtx := lastStateContext cms appHeight
  let bc := env.Blockchain self.ExecutionLayer
  let s1 := env.SetLatestQueryContext s bc cmsCtx
  let s2 := env.PrimePlugins s1 bc cmsCtx
  let r := env.LoadLastState s2 bc appHeight
  { world := r.1
    self := self
    trace := [RuntimeCall.SetLatestQueryContext cmsCtx, RuntimeCall.PrimePlugins cmsCtx,
      RuntimeCall.LoadLastState appHeight]
    result := Outcome.returned r.2 }

/-- The lock handles handed out in a trace, in call order. -/
def lockHandles : List RuntimeCall → List LockRef
  | [] => []
  | RuntimeCall.txpoolNew _ _ _ lock _ :: rest => lock :: lockHandles rest
  | RuntimeCall.minerNew _ _ _ lock :: rest => lock :: lockHandles rest
  | _ :: rest => lockHandles rest

/-- A world for the runtime coordinator: the latest query context, the context
the plugins were primed with, the context in force when the chain state was
loaded and the height it was loaded at. -/
structure SampleRuntimeWorld where
  latest : Option Context
  primed : Option Context
  loadedUnder : Option Context
  loadedAt : Option Nat
deriving DecidableEq, Repr

/-- The initial sample runtime world. -/
def sampleRuntimeWorld : SampleRuntimeWorld :=
  { latest := none, primed := none, loadedUnder := none, loadedAt := none }

/-- Sample collaborators: execution layer `10` with chain `11`, pool `12` and
miner `13`; the keeper setup fails when no wrapped pool is given; loading the
chain state fails at height `0`. -/
def sampleEnv : Env SampleRuntimeWorld :=
  { CommitMultiStore := fun _ => 77
    HostSetLatestQueryContext := fun s ctx => { s with latest := some ctx }
    ethNew := fun s client _ _ =>
      if client = "geth" then (s, Except.ok 10) else (s, Except.error "unknown execution layer")
    Blockchain := fun el => el + 1
    TxPool := fun el => el + 2
    Miner := fun el => el + 3
    txpoolNew := fun _ pool _ lock _ => 100 + pool + lock.owner
    minerNew := fun miner _ _ lock => 200 + miner + lock.owner
    chainNew := fun chain _ => 300 + chain
    NewProposalProvider := fun _ _ _ => 400
    SetMempool := fun s _ => s
    SetPrepareProposal := fun s _ => s
    SetProcessProposal := fun s _ => s
    Setup := fun s _ pool => if pool = none then (s, some "no pool") else (s, none)
    NewAnteHandler := fun _ h => 500 + h
    SetAnteHandler := fun s _ => s
    minerInit := fun s _ _ => s
    txpoolInit := fun s _ _ => s
    RegisterLifecycle := fun s _ => s
    RegisterSyncStatusProvider := fun s _ => s
    SetLatestQueryContext := fun s _ ctx => { s with latest := some ctx }
    PrimePlugins := fun s _ ctx => { s with primed := some ctx }
    LoadLastState := fun s _ h =>
      if h = 0 then (s, some "no state") else
        ({ s with loadedUnder := s.latest, loadedAt := some h }, none) }

/-- Sample configuration. -/
def sampleConfig : Config := { PriceLimit := 1, Lifetime := 3600, AllowUnprotectedTxs := false }

/-- The object `New` builds in the sample world at pointer `1`. -/
def sampleRuntime : Polaris :=
  { ExecutionLayer := 10
    ProposalProvider := none
    WrappedMiner := none
    WrappedTxPool := some 113
    WrappedBlockchain := none
    logger := 9
    blockBuilderMu := RWMutex.zero }

end Runtime

/-- Refunding what a meter reports as consumed never panics and leaves zero. -/
theorem GasMeter.RefundGas_consumed (g : GasMeter) :
    g.RefundGas g.GasConsumed = some { g with consumed := 0 } := by
  simp [GasMeter.RefundGas, GasMeter.GasConsumed]

/-- When `PreBlocker` fails, `ProcessProposal` stops there. -/
theorem ProcessProposal_preBlocker_fails {σ : Type} (lib : Lib) (wbc : WrappedBlockchain σ)
    (s : σ) (ctx : Context) (req : RequestProcessProposal) (err : Error)
    (h : (afterPreBlocker wbc s ctx req).err = some err) :
    wbc.ProcessProposal lib s ctx req =
      { state := (afterPreBlocker wbc s ctx req).state
        trace := [Call.PreBlocker ctx (finalizeRequest req)]
        result := reject err } := by
  unfold afterPreBlocker at h
  simp only [WrappedBlockchain.ProcessProposal, afterPreBlocker, h]

/-- When `PreBlocker` succeeds and `BeginBlocker` fails, `ProcessProposal` stops there. -/
theorem ProcessProposal_beginBlocker_fails {σ : Type} (lib : Lib) (wbc : WrappedBlockchain σ)
    (s : σ) (ctx : Context) (req : RequestProcessProposal) (err : Error)
    (hpre : (afterPreBlocker wbc s ctx req).err = none)
    (h : (afterBeginBlocker wbc s ctx req).err = some err) :
    wbc.ProcessProposal lib s ctx req =
      { state := (afterBeginBlocker wbc s ctx req).state
        trace := [Call.PreBlocker ctx (finalizeRequest req),
          Call.BeginBlocker (ctx.afterHook (afterPreBlocker wbc s ctx req))]
        result := reject err } := by
  unfold afterBeginBlocker at h
  unfold afterPreBlocker at h hpre
  simp only [WrappedBlockchain.ProcessProposal, afterPreBlocker, afterBeginBlocker, h, hpre]

/-- When the prelude succeeds, `ProcessProposal` refunds, scans and then acts on
the selected envelope. -/
theorem ProcessProposal_prelude_ok {σ : Type} (lib : Lib) (wbc : WrappedBlockchain σ)
    (s : σ) (ctx : Context) (req : RequestProcessProposal)
    (h : preludeSucceeds wbc s ctx req) :
    wbc.ProcessProposal lib s ctx req =
      { state := (processEnvelope lib wbc (afterBeginBlocker wbc s ctx req).state
          (insertionContext wbc s ctx req) (selectedEnvelope lib wbc req)).state
        trace := preludeTrace wbc s ctx req ++ scanTrace lib wbc req ++
          (processEnvelope lib wbc (afterBeginBlocker wbc s ctx req).state
            (insertionContext wbc s ctx req) (selectedEnvelope lib wbc req)).trace
        result := (processEnvelope lib wbc (afterBeginBlocker wbc s ctx req).state
          (insertionContext wbc s ctx req) (selectedEnvelope lib wbc req)).result } := by
  obtain ⟨hpre, hbeg⟩ := h
  unfold afterBeginBlocker at hbeg
  unfold afterPreBlocker at hpre hbeg
  simp only [WrappedBlockchain.ProcessProposal, afterPreBlocker, afterBeginBlocker, hpre, hbeg,
    GasMeter.RefundGas_consumed, insertionContext, preludeContext, preludeTrace, scanTrace,
    selectedEnvelope, Context.refunded, List.append_assoc, List.cons_append, List.nil_append]

/-- The inner loop leaves `envelope` alone and calls nothing when no message is
a payload envelope. -/
theorem scanMsgs_no_envelope (lib : Lib) (envelope : Option ExecutionPayloadEnvelope)
    (msgs : List Msg) (h : ∀ env, Msg.payloadEnvelope env ∉ msgs) :
    scanMsgs lib envelope msgs = (envelope, []) := by
  induction msgs with
  | nil => rfl
  | cons m rest ih =>
    cases m with
    | payloadEnvelope env => exact absurd (List.mem_cons_self _ _) (h env)
    | other tag =>
      simp only [scanMsgs]
      exact ih fun env hmem => h env (List.mem_cons_of_mem _ hmem)

/-- The outer loop leaves `envelope` alone and only decodes when no transaction
carries a payload envelope. -/
theorem scanTxs_no_envelope {σ : Type} (lib : Lib) (app : App σ)
    (envelope : Option ExecutionPayloadEnvelope) (txs : List Bytes)
    (h : ∀ tx ∈ txs, ¬ carriesEnvelope app tx) :
    scanTxs lib app envelope txs = (envelope, txs.map Call.TxDecode) := by
  induction txs with
  | nil => rfl
  | cons tx rest ih =>
    have hrest := ih fun t ht => h t (List.mem_cons_of_mem _ ht)
    have htx := h tx (List.mem_cons_self _ _)
    cases hdec : app.TxDecode tx with
    | error e => simp [scanTxs, hdec, hrest]
    | ok sdkTx =>
      have hm : scanMsgs lib envelope sdkTx.GetMsgs = (envelope, []) :=
        scanMsgs_no_envelope lib envelope _ fun env hmem => htx ⟨sdkTx, env, hdec, hmem⟩
      simp [scanTxs, hdec, hm, hrest]

/-- The scan makes no conversion, no call into the chain object and no hook
invocation, whatever the transactions are. -/
theorem scanMsgs_trace_inert (lib : Lib) (envelope : Option ExecutionPayloadEnvelope)
    (msgs : List Msg) :
    ∀ c ∈ (scanMsgs lib envelope msgs).2,
      c.isConversion = false ∧ c.isChainCall = false ∧ c.isHook = false := by
  induction msgs with
  | nil => intro c hc; simp [scanMsgs] at hc
  | cons m rest ih =>
    cases m with
    | payloadEnvelope env =>
      intro c hc
      simp only [scanMsgs, List.mem_singleton] at hc
      subst hc
      exact ⟨rfl, rfl, rfl⟩
    | other tag => simpa only [scanMsgs] using ih

/-- The scan makes no conversion, no call into the chain object and no hook
invocation, whatever the transactions are. -/
theorem scanTxs_trace_inert {σ : Type} (lib : Lib) (app : App σ)
    (envelope : Option ExecutionPayloadEnvelope) (txs : List Bytes) :
    ∀ c ∈ (scanTxs lib app envelope txs).2,
      c.isConversion = false ∧ c.isChainCall = false ∧ c.isHook = false := by
  induction txs generalizing envelope with
  | nil => intro c hc; simp [scanTxs] at hc
  | cons tx rest ih =>
    intro c hc
    cases hdec : app.TxDecode tx with
    | error e =>
      simp only [scanTxs, hdec, List.mem_cons] at hc
      rcases hc with rfl | hc
      · exact ⟨rfl, rfl, rfl⟩
      · exact ih _ c hc
    | ok sdkTx =>
      simp only [scanTxs, hdec, List.mem_cons, List.mem_append] at hc
      rcases hc with rfl | hc | hc
      · exact ⟨rfl, rfl, rfl⟩
      · exact scanMsgs_trace_inert lib envelope _ c hc
      · exact ih _ c hc

/-- The prelude and the refunds are no conversion, no call into the chain object
and no hook invocation. -/
theorem preludeTrace_inert {σ : Type} (wbc : WrappedBlockchain σ) (s : σ) (ctx : Context)
    (req : RequestProcessProposal) :
    ∀ c ∈ preludeTrace wbc s ctx req,
      c.isConversion = false ∧ c.isChainCall = false ∧ c.isHook = false := by
  intro c hc
  simp only [preludeTrace, List.mem_cons, List.mem_singleton, List.not_mem_nil, or_false] at hc
  rcases hc with rfl | rfl | rfl | rfl <;> exact ⟨rfl, rfl, rfl⟩

/-- A list of calls none of which is a hook invocation has no hook calls. -/
theorem hookCalls_eq_nil_of_inert (t : List Call)
    (h : ∀ c ∈ t, c.isConversion = false ∧ c.isChainCall = false ∧ c.isHook = false) :
    hookCalls t = [] := by
  simp only [hookCalls, List.filter_eq_nil_iff]
  intro c hc
  simp [(h c hc).2.2]

/-- Calls that are not calls into the chain object add no inserted block. -/
theorem insertedBlocks_append_inert (t : List Call)
    (h : ∀ c ∈ t, c.isConversion = false ∧ c.isChainCall = false ∧ c.isHook = false)
    (u : List Call) : insertedBlocks (t ++ u) = insertedBlocks u := by
  induction t with
  | nil => rfl
  | cons a t ih =>
    have hat := ih fun c hc => h c (List.mem_cons_of_mem _ hc)
    have hc := (h a (List.mem_cons_self _ _)).2.1
    cases a <;> first | exact hat | simp [Call.isChainCall] at hc

/-- Calls that are not conversions add no converted payload. -/
theorem convertedPayloads_append_inert (t : List Call)
    (h : ∀ c ∈ t, c.isConversion = false ∧ c.isChainCall = false ∧ c.isHook = false)
    (u : List Call) : convertedPayloads (t ++ u) = convertedPayloads u := by
  induction t with
  | nil => rfl
  | cons a t ih =>
    have hat := ih fun c hc => h c (List.mem_cons_of_mem _ hc)
    have hc := (h a (List.mem_cons_self _ _)).1
    cases a <;> first | exact hat | simp [Call.isConversion] at hc

/-- Hook invocations of a concatenated trace. -/
theorem hookCalls_append (t u : List Call) : hookCalls (t ++ u) = hookCalls t ++ hookCalls u := by
  simp [hookCalls]

/-- With no envelope selected, nothing is done and the proposal is accepted. -/
theorem processEnvelope_none {σ : Type} (lib : Lib) (wbc : WrappedBlockchain σ) (s : σ)
    (ctx : Context) :
    processEnvelope lib wbc s ctx none = { state := s, trace := [], result := accept } := rfl

/-- An envelope whose payload pointer is nil makes the dereference panic. -/
theorem processEnvelope_no_payload {σ : Type} (lib : Lib) (wbc : WrappedBlockchain σ) (s : σ)
    (ctx : Context) :
    processEnvelope lib wbc s ctx (some { ExecutionPayload := none }) =
      { state := s, trace := [], result := Outcome.panicked "nil pointer dereference" } := rfl

/-- A failed conversion rejects after the conversion call alone. -/
theorem processEnvelope_conversion_fails {σ : Type} (lib : Lib) (wbc : WrappedBlockchain σ)
    (s : σ) (ctx : Context) (payload : ExecutableData) (err : Error)
    (hconv : lib.ExecutableDataToBlock payload [] none = Except.error err) :
    processEnvelope lib wbc s ctx (some { ExecutionPayload := some payload }) =
      { state := s
        trace := [Call.ExecutableDataToBlock payload [] none]
        result := reject err } := by
  simp only [processEnvelope, hconv]

/-- A failed insertion rejects after conversion, plugin preparation and insertion. -/
theorem processEnvelope_insertion_fails {σ : Type} (lib : Lib) (wbc : WrappedBlockchain σ)
    (s s2 : σ) (ctx : Context) (payload : ExecutableData) (block : Block)
    (receipts : List Receipt) (err : Error)
    (hconv : lib.ExecutableDataToBlock payload [] none = Except.ok block)
    (hins : wbc.Blockchain.InsertBlockWithoutSetHead (wbc.Blockchain.PreparePlugins s ctx) block =
      (s2, (receipts, some err))) :
    processEnvelope lib wbc s ctx (some { ExecutionPayload := some payload }) =
      { state := s2
        trace := [Call.ExecutableDataToBlock payload [] none, Call.PreparePlugins ctx,
          Call.InsertBlockWithoutSetHead block]
        result := reject err } := by
  simp only [processEnvelope, hconv, WrappedBlockchain.InsertBlockWithoutSetHead, hins]

/-- A successful insertion without a configured hook accepts. -/
theorem processEnvelope_inserted_no_hook {σ : Type} (lib : Lib) (wbc : WrappedBlockchain σ)
    (s s2 : σ) (ctx : Context) (payload : ExecutableData) (block : Block)
    (receipts : List Receipt)
    (hconv : lib.ExecutableDataToBlock payload [] none = Except.ok block)
    (hins : wbc.Blockchain.InsertBlockWithoutSetHead (wbc.Blockchain.PreparePlugins s ctx) block =
      (s2, (receipts, none)))
    (hhook : wbc.hook = none) :
    processEnvelope lib wbc s ctx (some { ExecutionPayload := some payload }) =
      { state := s2
        trace := [Call.ExecutableDataToBlock payload [] none, Call.PreparePlugins ctx,
          Call.InsertBlockWithoutSetHead block]
        result := accept } := by
  simp only [processEnvelope, hconv, WrappedBlockchain.InsertBlockWithoutSetHead, hins, hhook]

/-- A successful insertion with a configured hook invokes it and accepts. -/
theorem processEnvelope_inserted_hook {σ : Type} (lib : Lib) (wbc : WrappedBlockchain σ)
    (s s2 : σ) (ctx : Context) (payload : ExecutableData) (block : Block)
    (receipts : List Receipt) (hook : PostBlockHookFn σ)
    (hconv : lib.ExecutableDataToBlock payload [] none = Except.ok block)
    (hins : wbc.Blockchain.InsertBlockWithoutSetHead (wbc.Blockchain.PreparePlugins s ctx) block =
      (s2, (receipts, none)))
    (hhook : wbc.hook = some hook) :
    processEnvelope lib wbc s ctx (some { ExecutionPayload := some payload }) =
      { state := hook s2 block.Transactions receipts
          (lib.MakeSigner (wbc.Blockchain.Config s2) block.Header.Number block.Header.Time)
        trace := [Call.ExecutableDataToBlock payload [] none, Call.PreparePlugins ctx,
          Call.InsertBlockWithoutSetHead block,
          Call.hook block.Transactions receipts
            (lib.MakeSigner (wbc.Blockchain.Config s2) block.Header.Number block.Header.Time)]
        result := accept } := by
  simp only [processEnvelope, hconv, WrappedBlockchain.InsertBlockWithoutSetHead, hins, hhook,
    List.cons_append, List.nil_append]

/-! ## Claims -/

/-- C1 (behaviour of the code on two envelopes): in the sample world, for the
proposal whose two transactions carry the envelopes of payload 3 and of payload
5, the prelude succeeds, the proposal is accepted, exactly one payload is
converted and exactly one block is inserted, and that block is the conversion
of the second envelope's payload (payload 5), not of the first (payload 3); the
two blocks have different hashes. -/
theorem C1_two_envelopes_second_is_inserted :
    carriesEnvelope (sampleWbc none none).app [1, 3] ∧
    carriesEnvelope (sampleWbc none none).app [1, 5] ∧
    preludeSucceeds (sampleWbc none none) sampleWorld sampleCtx (sampleReq [[1, 3], [1, 5]]) ∧
    (scanTxs sampleLib (sampleWbc none none).app none [[1, 3]]).1 =
      some { ExecutionPayload := some (samplePayload 3) } ∧
    sampleLib.ExecutableDataToBlock (samplePayload 3) [] none = Except.ok (sampleBlock 3) ∧
    sampleLib.ExecutableDataToBlock (samplePayload 5) [] none = Except.ok (sampleBlock 5) ∧
    ((sampleWbc none none).ProcessProposal sampleLib sampleWorld sampleCtx
      (sampleReq [[1, 3], [1, 5]])).result =
      Outcome.returned (some { Status := ProposalStatus.ACCEPT }, none) ∧
    convertedPayloads ((sampleWbc none none).ProcessProposal sampleLib sampleWorld sampleCtx
      (sampleReq [[1, 3], [1, 5]])).trace = [samplePayload 5] ∧
    insertedBlocks ((sampleWbc none none).ProcessProposal sampleLib sampleWorld sampleCtx
      (sampleReq [[1, 3], [1, 5]])).trace = [sampleBlock 5] ∧
    ((sampleWbc none none).ProcessProposal sampleLib sampleWorld sampleCtx
      (sampleReq [[1, 3], [1, 5]])).state.store = [sampleBlock 5] ∧
    Block.Hash sampleLib (sampleBlock 5) ≠ Block.Hash sampleLib (sampleBlock 3) := by
  refine ⟨⟨⟨[Msg.payloadEnvelope ⟨[3]⟩]⟩, ⟨[3]⟩, rfl, List.mem_cons_self _ _⟩,
    ⟨⟨[Msg.payloadEnvelope ⟨[5]⟩]⟩, ⟨[5]⟩, rfl, List.mem_cons_self _ _⟩,
    ⟨rfl, rfl⟩, rfl, rfl, rfl, rfl, rfl, rfl, rfl, by decide⟩

/-- C2: when the prelude replay succeeds and no transaction of the proposal
carries a payload-envelope message, `ProcessProposal` returns status ACCEPT with
a nil error, leaves the world as the prelude left it, and its calls are exactly
the prelude, the two refunds and one `TxDecode` per transaction: no conversion,
no call into the chain object and no post-block hook invocation. -/
theorem C2_no_envelope_accepts_without_mutation {σ : Type} (lib : Lib)
    (wbc : WrappedBlockchain σ) (s : σ) (ctx : Context) (req : RequestProcessProposal)
    (hprelude : preludeSucceeds wbc s ctx req)
    (hno : ∀ tx ∈ req.Txs, ¬ carriesEnvelope wbc.app tx) :
    (wbc.ProcessProposal lib s ctx req).result =
      Outcome.returned (some { Status := ProposalStatus.ACCEPT }, none) ∧
    (wbc.ProcessProposal lib s ctx req).state = (afterBeginBlocker wbc s ctx req).state ∧
    (wbc.ProcessProposal lib s ctx req).trace =
      preludeTrace wbc s ctx req ++ req.Txs.map Call.TxDecode ∧
    ∀ c ∈ (wbc.ProcessProposal lib s ctx req).trace,
      c.isConversion = false ∧ c.isChainCall = false ∧ c.isHook = false := by
  have hscan := scanTxs_no_envelope lib wbc.app none req.Txs hno
  have hsel : selectedEnvelope lib wbc req = none := by simp [selectedEnvelope, hscan]
  have htr : scanTrace lib wbc req = req.Txs.map Call.TxDecode := by simp [scanTrace, hscan]
  have htrace : (wbc.ProcessProposal lib s ctx req).trace =
      preludeTrace wbc s ctx req ++ req.Txs.map Call.TxDecode := by
    rw [ProcessProposal_prelude_ok lib wbc s ctx req hprelude]
    simp [hsel, htr, processEnvelope]
  refine ⟨?_, ?_, htrace, ?_⟩
  · rw [ProcessProposal_prelude_ok lib wbc s ctx req hprelude]
    simp [hsel, processEnvelope, accept]
  · rw [ProcessProposal_prelude_ok lib wbc s ctx req hprelude]
    simp [hsel, processEnvelope]
  · intro c hc
    rw [htrace, List.mem_append] at hc
    rcases hc with hc | hc
    · simp only [preludeTrace, List.mem_cons, List.mem_singleton, List.not_mem_nil,
        or_false] at hc
      rcases hc with rfl | rfl | rfl | rfl <;> exact ⟨rfl, rfl, rfl⟩
    · obtain ⟨tx, _, rfl⟩ := List.mem_map.mp hc
      exact ⟨rfl, rfl, rfl⟩

/-- C2 at a concrete proposal: an undecodable transaction and two ordinary ones. -/
theorem C2_no_envelope_accepts_without_mutation_witness :
    ((sampleWbc none none).ProcessProposal sampleLib sampleWorld sampleCtx
      (sampleReq [[], [1, 2], [4, 6, 8]])).result =
      Outcome.returned (some { Status := ProposalStatus.ACCEPT }, none) ∧
    ((sampleWbc none none).ProcessProposal sampleLib sampleWorld sampleCtx
      (sampleReq [[], [1, 2], [4, 6, 8]])).state = sampleWorld := by
  have h := C2_no_envelope_accepts_without_mutation sampleLib (sampleWbc none none) sampleWorld
    sampleCtx (sampleReq [[], [1, 2], [4, 6, 8]]) ⟨rfl, rfl⟩ (by
      intro tx htx ⟨sdkTx, env, hdec, hmem⟩
      simp only [sampleReq, List.mem_cons, List.mem_singleton, List.not_mem_nil,
        or_false] at htx
      rcases htx with rfl | rfl | rfl
      · cases hdec
      · cases hdec
        simp [Tx.GetMsgs] at hmem
      · cases hdec
        simp [Tx.GetMsgs] at hmem)
  exact ⟨h.1, h.2.1⟩

/-- C3: `PreBlocker` is the first call of every `ProcessProposal` run and gets
the proposal's own Txs, Time, Misbehavior, Height, NextValidatorsHash and
ProposerAddress.  If it returns an error, the run returns REJECT with that same
error and `PreBlocker` is its only call.  If it succeeds and `BeginBlocker`
returns an error, the run returns REJECT with that error and its only calls are
`PreBlocker` and `BeginBlocker`: nothing is decoded, converted or inserted and
the hook is not invoked. -/
theorem C3_prelude_failure_rejects_immediately {σ : Type} (lib : Lib)
    (wbc : WrappedBlockchain σ) (s : σ) (ctx : Context) (req : RequestProcessProposal) :
    ((finalizeRequest req).Txs = req.Txs ∧ (finalizeRequest req).Time = req.Time ∧
      (finalizeRequest req).Misbehavior = req.Misbehavior ∧
      (finalizeRequest req).Height = req.Height ∧
      (finalizeRequest req).NextValidatorsHash = req.NextValidatorsHash ∧
      (finalizeRequest req).ProposerAddress = req.ProposerAddress) ∧
    (wbc.ProcessProposal lib s ctx req).trace.head? =
      some (Call.PreBlocker ctx (finalizeRequest req)) ∧
    (∀ err, (wbc.app.PreBlocker s ctx (finalizeRequest req)).err = some err →
      (wbc.ProcessProposal lib s ctx req).result =
        Outcome.returned (some { Status := ProposalStatus.REJECT }, some err) ∧
      (wbc.ProcessProposal lib s ctx req).trace = [Call.PreBlocker ctx (finalizeRequest req)]) ∧
    (∀ err, (wbc.app.PreBlocker s ctx (finalizeRequest req)).err = none →
      (wbc.app.BeginBlocker (wbc.app.PreBlocker s ctx (finalizeRequest req)).state
        (ctx.afterHook (wbc.app.PreBlocker s ctx (finalizeRequest req)))).err = some err →
      (wbc.ProcessProposal lib s ctx req).result =
        Outcome.returned (some { Status := ProposalStatus.REJECT }, some err) ∧
      (wbc.ProcessProposal lib s ctx req).trace =
        [Call.PreBlocker ctx (finalizeRequest req),
         Call.BeginBlocker (ctx.afterHook (wbc.app.PreBlocker s ctx (finalizeRequest req)))]) := by
  refine ⟨⟨rfl, rfl, rfl, rfl, rfl, rfl⟩, ?_, ?_, ?_⟩
  · cases hpre : (afterPreBlocker wbc s ctx req).err with
    | some err => rw [ProcessProposal_preBlocker_fails lib wbc s ctx req err hpre]; rfl
    | none =>
      cases hbeg : (afterBeginBlocker wbc s ctx req).err with
      | some err => rw [ProcessProposal_beginBlocker_fails lib wbc s ctx req err hpre hbeg]; rfl
      | none => rw [ProcessProposal_prelude_ok lib wbc s ctx req ⟨hpre, hbeg⟩]; rfl
  · intro err hpre
    rw [ProcessProposal_preBlocker_fails lib wbc s ctx req err hpre]
    exact ⟨rfl, rfl⟩
  · intro err hpre hbeg
    rw [ProcessProposal_beginBlocker_fails lib wbc s ctx req err hpre hbeg]
    exact ⟨rfl, rfl⟩

/-- C3 at concrete inputs: a failing `PreBlocker`, then a failing `BeginBlocker`. -/
theorem C3_prelude_failure_rejects_immediately_witness :
    (((sampleWbc (some "pre") none).ProcessProposal sampleLib sampleWorld sampleCtx
        (sampleReq [[1, 3]])).result =
        Outcome.returned (some { Status := ProposalStatus.REJECT }, some "pre") ∧
      ((sampleWbc (some "pre") none).ProcessProposal sampleLib sampleWorld sampleCtx
        (sampleReq [[1, 3]])).trace =
        [Call.PreBlocker sampleCtx (finalizeRequest (sampleReq [[1, 3]]))]) ∧
    ((sampleWbc none (some "begin")).ProcessProposal sampleLib sampleWorld sampleCtx
        (sampleReq [[1, 3]])).result =
        Outcome.returned (some { Status := ProposalStatus.REJECT }, some "begin") :=
  ⟨(C3_prelude_failure_rejects_immediately sampleLib (sampleWbc (some "pre") none) sampleWorld
      sampleCtx (sampleReq [[1, 3]])).2.2.1 "pre" rfl,
   ((C3_prelude_failure_rejects_immediately sampleLib (sampleWbc none (some "begin")) sampleWorld
      sampleCtx (sampleReq [[1, 3]])).2.2.2 "begin" rfl rfl).1⟩

/-- C4: let the prelude succeed and the scan select an envelope with payload
`payload`.  If the conversion of the payload fails, `ProcessProposal` returns
REJECT with the conversion error, makes no call into the chain object and no
hook invocation, leaves the world as the prelude left it, and every part of the
world that the prelude hooks leave alone (the chain and its head) is the same
before and after the call.  If the conversion succeeds and
`InsertBlockWithoutSetHead` fails, it returns REJECT with the insertion error
and the hook is not invoked. -/
theorem C4_conversion_or_insertion_failure_rejects {σ : Type} (lib : Lib)
    (wbc : WrappedBlockchain σ) (s : σ) (ctx : Context) (req : RequestProcessProposal)
    (payload : ExecutableData)
    (hprelude : preludeSucceeds wbc s ctx req)
    (hsel : selectedEnvelope lib wbc req = some { ExecutionPayload := some payload }) :
    (∀ err, lib.ExecutableDataToBlock payload [] none = Except.error err →
      (wbc.ProcessProposal lib s ctx req).result =
        Outcome.returned (some { Status := ProposalStatus.REJECT }, some err) ∧
      (∀ c ∈ (wbc.ProcessProposal lib s ctx req).trace,
        c.isChainCall = false ∧ c.isHook = false) ∧
      (wbc.ProcessProposal lib s ctx req).state = (afterBeginBlocker wbc s ctx req).state ∧
      ∀ (β : Type) (view : σ → β),
        (∀ s0 c r, view (wbc.app.PreBlocker s0 c r).state = view s0) →
        (∀ s0 c, view (wbc.app.BeginBlocker s0 c).state = view s0) →
        view (wbc.ProcessProposal lib s ctx req).state = view s) ∧
    (∀ block s2 receipts err, lib.ExecutableDataToBlock payload [] none = Except.ok block →
      wbc.Blockchain.InsertBlockWithoutSetHead
        (wbc.Blockchain.PreparePlugins (afterBeginBlocker wbc s ctx req).state
          (insertionContext wbc s ctx req)) block = (s2, (receipts, some err)) →
      (wbc.ProcessProposal lib s ctx req).result =
        Outcome.returned (some { Status := ProposalStatus.REJECT }, some err) ∧
      insertedBlocks (wbc.ProcessProposal lib s ctx req).trace = [block] ∧
      (wbc.ProcessProposal lib s ctx req).state = s2 ∧
      hookCalls (wbc.ProcessProposal lib s ctx req).trace = []) := by
  have hp := preludeTrace_inert wbc s ctx req
  have hs : ∀ c ∈ scanTrace lib wbc req,
      c.isConversion = false ∧ c.isChainCall = false ∧ c.isHook = false :=
    scanTxs_trace_inert lib wbc.app none req.Txs
  constructor
  · intro err hconv
    have hrun := ProcessProposal_prelude_ok lib wbc s ctx req hprelude
    rw [hsel, processEnvelope_conversion_fails lib wbc _ _ payload err hconv] at hrun
    rw [hrun]
    refine ⟨rfl, ?_, rfl, ?_⟩
    · intro c hc
      simp only [List.mem_append, List.mem_singleton] at hc
      rcases hc with (hc | hc) | rfl
      · exact (hp c hc).2
      · exact (hs c hc).2
      · exact ⟨rfl, rfl⟩
    · intro β view hvpre hvbeg
      show view (afterBeginBlocker wbc s ctx req).state = view s
      unfold afterBeginBlocker afterPreBlocker
      rw [hvbeg, hvpre]
  · intro block s2 receipts err hconv hins
    have hrun := ProcessProposal_prelude_ok lib wbc s ctx req hprelude
    rw [hsel, processEnvelope_insertion_fails lib wbc _ s2 _ payload block receipts err hconv
      hins] at hrun
    rw [hrun]
    refine ⟨rfl, ?_, rfl, ?_⟩
    · show insertedBlocks (preludeTrace wbc s ctx req ++ scanTrace lib wbc req ++ _) = [block]
      rw [List.append_assoc, insertedBlocks_append_inert _ hp, insertedBlocks_append_inert _ hs]
      rfl
    · rw [hookCalls_append, hookCalls_append, hookCalls_eq_nil_of_inert _ hp,
        hookCalls_eq_nil_of_inert _ hs]
      rfl

/-- C4 at concrete inputs: a payload whose conversion fails (block hash 99) and a
block the chain refuses (number 13). -/
theorem C4_conversion_or_insertion_failure_rejects_witness :
    ((sampleWbc none none).ProcessProposal sampleLib sampleWorld sampleCtx
        (sampleReq [[1, 99]])).result =
        Outcome.returned (some { Status := ProposalStatus.REJECT }, some "blockhash mismatch") ∧
    ((sampleWbc none none).ProcessProposal sampleLib sampleWorld sampleCtx
        (sampleReq [[1, 99]])).state = sampleWorld ∧
    ((sampleWbc none none).ProcessProposal sampleLib sampleWorld sampleCtx
        (sampleReq [[1, 13]])).result =
        Outcome.returned (some { Status := ProposalStatus.REJECT }, some "invalid block") ∧
    hookCalls ((sampleWbc none none).ProcessProposal sampleLib sampleWorld sampleCtx
        (sampleReq [[1, 13]])).trace = [] := by
  have h1 := (C4_conversion_or_insertion_failure_rejects sampleLib (sampleWbc none none)
    sampleWorld sampleCtx (sampleReq [[1, 99]]) (samplePayload 99) ⟨rfl, rfl⟩ rfl).1
    "blockhash mismatch" rfl
  have h2 := (C4_conversion_or_insertion_failure_rejects sampleLib (sampleWbc none none)
    sampleWorld sampleCtx (sampleReq [[1, 13]]) (samplePayload 13) ⟨rfl, rfl⟩ rfl).2
    (sampleBlock 13) _ [] "invalid block" rfl rfl
  exact ⟨h1.1, h1.2.2.1, h2.1, h2.2.2.2⟩

/-- C5: in a `ProcessProposal` run where the prelude, the conversion of the
selected envelope's payload and the insertion all succeed, the block is inserted
once and the run returns ACCEPT with a nil error; if a hook is configured it is
invoked exactly once, with the block's transactions, the receipts returned by
that insertion and the signer made from the chain configuration and the block
header's number and time; if no hook is configured it is invoked zero times.
Conversely, in every run in which the hook is invoked at all, a hook is
configured and the prelude, conversion and insertion all succeeded: in every
other outcome the hook is called zero times. -/
theorem C5_hook_once_per_inserted_block {σ : Type} (lib : Lib) (wbc : WrappedBlockchain σ)
    (s : σ) (ctx : Context) (req : RequestProcessProposal) :
    (∀ payload block s2 receipts,
      preludeSucceeds wbc s ctx req →
      selectedEnvelope lib wbc req = some { ExecutionPayload := some payload } →
      lib.ExecutableDataToBlock payload [] none = Except.ok block →
      wbc.Blockchain.InsertBlockWithoutSetHead
        (wbc.Blockchain.PreparePlugins (afterBeginBlocker wbc s ctx req).state
          (insertionContext wbc s ctx req)) block = (s2, (receipts, none)) →
      (wbc.ProcessProposal lib s ctx req).result =
        Outcome.returned (some { Status := ProposalStatus.ACCEPT }, none) ∧
      insertedBlocks (wbc.ProcessProposal lib s ctx req).trace = [block] ∧
      (∀ hook, wbc.hook = some hook →
        hookCalls (wbc.ProcessProposal lib s ctx req).trace =
          [Call.hook block.Transactions receipts
            (lib.MakeSigner (wbc.Blockchain.Config s2) block.Header.Number block.Header.Time)] ∧
        (wbc.ProcessProposal lib s ctx req).state =
          hook s2 block.Transactions receipts
            (lib.MakeSigner (wbc.Blockchain.Config s2) block.Header.Number block.Header.Time)) ∧
      (wbc.hook = none →
        hookCalls (wbc.ProcessProposal lib s ctx req).trace = [] ∧
        (wbc.ProcessProposal lib s ctx req).state = s2)) ∧
    (hookCalls (wbc.ProcessProposal lib s ctx req).trace ≠ [] →
      wbc.hook ≠ none ∧ preludeSucceeds wbc s ctx req ∧
      (wbc.ProcessProposal lib s ctx req).result =
        Outcome.returned (some { Status := ProposalStatus.ACCEPT }, none) ∧
      ∃ payload block s2 receipts,
        selectedEnvelope lib wbc req = some { ExecutionPayload := some payload } ∧
        lib.ExecutableDataToBlock payload [] none = Except.ok block ∧
        wbc.Blockchain.InsertBlockWithoutSetHead
          (wbc.Blockchain.PreparePlugins (afterBeginBlocker wbc s ctx req).state
            (insertionContext wbc s ctx req)) block = (s2, (receipts, none))) := by
  have hp := preludeTrace_inert wbc s ctx req
  have hs : ∀ c ∈ scanTrace lib wbc req,
      c.isConversion = false ∧ c.isChainCall = false ∧ c.isHook = false :=
    scanTxs_trace_inert lib wbc.app none req.Txs
  have hhk : ∀ u, hookCalls (preludeTrace wbc s ctx req ++ scanTrace lib wbc req ++ u) =
      hookCalls u := by
    intro u
    rw [hookCalls_append, hookCalls_append, hookCalls_eq_nil_of_inert _ hp,
      hookCalls_eq_nil_of_inert _ hs]
    rfl
  have hib : ∀ u, insertedBlocks (preludeTrace wbc s ctx req ++ scanTrace lib wbc req ++ u) =
      insertedBlocks u := by
    intro u
    rw [List.append_assoc, insertedBlocks_append_inert _ hp, insertedBlocks_append_inert _ hs]
  constructor
  · intro payload block s2 receipts hprelude hsel hconv hins
    have hrun := ProcessProposal_prelude_ok lib wbc s ctx req hprelude
    rw [hsel] at hrun
    cases hhook : wbc.hook with
    | none =>
      rw [processEnvelope_inserted_no_hook lib wbc _ s2 _ payload block receipts hconv hins
        hhook] at hrun
      rw [hrun]
      refine ⟨rfl, ?_, ?_, ?_⟩
      · show insertedBlocks (preludeTrace wbc s ctx req ++ scanTrace lib wbc req ++ _) = [block]
        rw [hib]; rfl
      · intro hook hh; cases hh
      · intro _
        refine ⟨?_, rfl⟩
        show hookCalls (preludeTrace wbc s ctx req ++ scanTrace lib wbc req ++ _) = []
        rw [hhk]; rfl
    | some hook =>
      rw [processEnvelope_inserted_hook lib wbc _ s2 _ payload block receipts hook hconv hins
        hhook] at hrun
      rw [hrun]
      refine ⟨rfl, ?_, ?_, ?_⟩
      · show insertedBlocks (preludeTrace wbc s ctx req ++ scanTrace lib wbc req ++ _) = [block]
        rw [hib]; rfl
      · intro hook2 hh
        cases hh
        refine ⟨?_, rfl⟩
        show hookCalls (preludeTrace wbc s ctx req ++ scanTrace lib wbc req ++ _) = _
        rw [hhk]; rfl
      · intro hh; cases hh
  · intro hne
    cases hpre : (afterPreBlocker wbc s ctx req).err with
    | some err =>
      rw [ProcessProposal_preBlocker_fails lib wbc s ctx req err hpre] at hne
      exact absurd rfl hne
    | none =>
      cases hbeg : (afterBeginBlocker wbc s ctx req).err with
      | some err =>
        rw [ProcessProposal_beginBlocker_fails lib wbc s ctx req err hpre hbeg] at hne
        exact absurd rfl hne
      | none =>
        have hprelude : preludeSucceeds wbc s ctx req := ⟨hpre, hbeg⟩
        have hrun := ProcessProposal_prelude_ok lib wbc s ctx req hprelude
        rw [hrun] at hne
        rw [hrun]
        replace hne : hookCalls (processEnvelope lib wbc (afterBeginBlocker wbc s ctx req).state
            (insertionContext wbc s ctx req) (selectedEnvelope lib wbc req)).trace ≠ [] := by
          intro h0
          apply hne
          show hookCalls (preludeTrace wbc s ctx req ++ scanTrace lib wbc req ++ _) = []
          rw [hhk]; exact h0
        cases hsel : selectedEnvelope lib wbc req with
        | none =>
          rw [hsel, processEnvelope_none] at hne
          exact absurd rfl hne
        | some envelope =>
          obtain ⟨pl⟩ := envelope
          cases pl with
          | none =>
            rw [hsel, processEnvelope_no_payload] at hne
            exact absurd rfl hne
          | some payload =>
            cases hconv : lib.ExecutableDataToBlock payload [] none with
            | error err =>
              rw [hsel, processEnvelope_conversion_fails lib wbc _ _ payload err hconv] at hne
              exact absurd rfl hne
            | ok block =>
              obtain ⟨s2, receipts, ierr, hins⟩ : ∃ s2 receipts ierr,
                  wbc.Blockchain.InsertBlockWithoutSetHead
                    (wbc.Blockchain.PreparePlugins (afterBeginBlocker wbc s ctx req).state
                      (insertionContext wbc s ctx req)) block = (s2, (receipts, ierr)) :=
                ⟨_, _, _, rfl⟩
              cases ierr with
              | some err =>
                rw [hsel, processEnvelope_insertion_fails lib wbc _ s2 _ payload block receipts
                  err hconv hins] at hne
                exact absurd rfl hne
              | none =>
                cases hhook : wbc.hook with
                | none =>
                  rw [hsel, processEnvelope_inserted_no_hook lib wbc _ s2 _ payload block
                    receipts hconv hins hhook] at hne
                  exact absurd rfl hne
                | some hook =>
                  rw [processEnvelope_inserted_hook lib wbc _ s2 _ payload block receipts hook
                    hconv hins hhook]
                  exact ⟨by simp, hprelude, rfl, payload, block, s2, receipts, rfl, hconv, hins⟩

/-- C5 at a concrete proposal: one envelope, inserted, hook configured. -/
theorem C5_hook_once_per_inserted_block_witness :
    hookCalls ((sampleWbc none none).ProcessProposal sampleLib sampleWorld sampleCtx
      (sampleReq [[1, 3]])).trace = [Call.hook [1] [101] 80091] ∧
    hookCalls (sampleWbcNoHook.ProcessProposal sampleLib sampleWorld sampleCtx
      (sampleReq [[1, 3]])).trace = [] ∧
    (sampleWbcNoHook.ProcessProposal sampleLib sampleWorld sampleCtx
      (sampleReq [[1, 3]])).result =
      Outcome.returned (some { Status := ProposalStatus.ACCEPT }, none) := by
  have h1 := (C5_hook_once_per_inserted_block sampleLib (sampleWbc none none) sampleWorld
    sampleCtx (sampleReq [[1, 3]])).1 (samplePayload 3) (sampleBlock 3) _ [101] ⟨rfl, rfl⟩
    rfl rfl rfl
  have h2 := (C5_hook_once_per_inserted_block sampleLib sampleWbcNoHook sampleWorld
    sampleCtx (sampleReq [[1, 3]])).1 (samplePayload 3) (sampleBlock 3) _ [101] ⟨rfl, rfl⟩
    rfl rfl rfl
  exact ⟨(h1.2.2.1 sampleHook rfl).1, (h2.2.2.2 rfl).1, h2.1⟩

/-- The dereference of `envelope.ExecutionPayload` is unguarded: with the sample
library, whose unwrapping hands out an envelope without payload for data `[1]`,
a proposal holding that message makes `ProcessProposal` panic. -/
theorem ProcessProposal_panics_on_envelope_without_payload :
    preludeSucceeds (sampleWbc none none) sampleWorld sampleCtx (sampleReq [[1, 1]]) ∧
    selectedEnvelope sampleLib (sampleWbc none none) (sampleReq [[1, 1]]) =
      some { ExecutionPayload := none } ∧
    ((sampleWbc none none).ProcessProposal sampleLib sampleWorld sampleCtx
      (sampleReq [[1, 1]])).result = Outcome.panicked "nil pointer dereference" ∧
    ¬ ∃ resp err, ((sampleWbc none none).ProcessProposal sampleLib sampleWorld sampleCtx
      (sampleReq [[1, 1]])).result = Outcome.returned (resp, err) := by
  refine ⟨⟨rfl, rfl⟩, rfl, rfl, ?_⟩
  rintro ⟨resp, err, h⟩
  have hp : ((sampleWbc none none).ProcessProposal sampleLib sampleWorld sampleCtx
      (sampleReq [[1, 1]])).result = Outcome.panicked "nil pointer dereference" := rfl
  rw [hp] at h
  cases h

/-- C7: when conversion, `InsertBlockWithoutSetHead` and `SetCanonical` all
succeed, `NewPayloadV3` returns a nil error and status VALID with a non-nil
`LatestValidHash`, and that hash is the hash of the chain's current block
queried after the call; whenever the successful `SetCanonical` has made the
converted block the current one, it is the hash of the block converted from the
payload. -/
theorem C7_canonicalization_round_trip {σ : Type} (lib : Lib) (el : ExecutionLayer σ) (s : σ)
    (params : ExecutableData) (versionedHashes : List Hash) (beaconRoot : Option Hash)
    (block : Block) (s1 s2 : σ) (canonHash : Hash)
    (hconv : lib.ExecutableDataToBlock params versionedHashes beaconRoot = Except.ok block)
    (hins : el.Blockchain.InsertBlockWithoutSetHead s block = (s1, none))
    (hcan : el.Blockchain.SetCanonical s1 block = (s2, (canonHash, none))) :
    ∃ latest,
      (el.NewPayloadV3 lib s params versionedHashes beaconRoot).result =
        Outcome.returned
          ({ Status := VALID, LatestValidHash := some latest, ValidationError := none }, none) ∧
      latest = lib.HeaderHash (el.Blockchain.CurrentBlock
        (el.NewPayloadV3 lib s params versionedHashes beaconRoot).state) ∧
      (el.NewPayloadV3 lib s params versionedHashes beaconRoot).state = s2 ∧
      (el.Blockchain.CurrentBlock s2 = block.Header → latest = block.Hash lib) := by
  refine ⟨lib.HeaderHash (el.Blockchain.CurrentBlock s2), ?_, ?_, ?_, ?_⟩
  · simp only [ExecutionLayer.NewPayloadV3, hconv, hins, hcan]
  · simp only [ExecutionLayer.NewPayloadV3, hconv, hins, hcan]
  · simp only [ExecutionLayer.NewPayloadV3, hconv, hins, hcan]
  · intro h
    rw [h, Block.Hash]

/-- C7 at a concrete payload: payload 5 on the sample engine. -/
theorem C7_canonicalization_round_trip_witness :
    ∃ latest,
      (sampleEL.NewPayloadV3 sampleLib sampleWorld (samplePayload 5) [] none).result =
        Outcome.returned
          ({ Status := VALID, LatestValidHash := some latest, ValidationError := none }, none) ∧
      latest = sampleLib.HeaderHash (sampleEL.Blockchain.CurrentBlock
        (sampleEL.NewPayloadV3 sampleLib sampleWorld (samplePayload 5) [] none).state) ∧
      latest = (sampleBlock 5).Hash sampleLib := by
  obtain ⟨latest, h1, h2, _, h4⟩ := C7_canonicalization_round_trip sampleLib sampleEL sampleWorld
    (samplePayload 5) [] none (sampleBlock 5) { sampleWorld with store := [sampleBlock 5] }
    { sampleWorld with store := [sampleBlock 5], head := (sampleBlock 5).header } 5006
    rfl rfl rfl
  exact ⟨latest, h1, h2, h4 rfl⟩

/-- C8: if the conversion fails, `NewPayloadV3` returns status INVALID with no
`LatestValidHash` and the conversion error, its only call is the conversion and
the world is unchanged.  If the conversion succeeds and the insertion fails, it
returns INVALID and the insertion error, `SetCanonical` is not called, and the
current block is the one from before the call whenever insertion without
setting the head leaves the current block alone.  It returns VALID only when
conversion, insertion and canonicalization all succeed. -/
theorem C8_invalid_on_first_failing_step {σ : Type} (lib : Lib) (el : ExecutionLayer σ) (s : σ)
    (params : ExecutableData) (versionedHashes : List Hash) (beaconRoot : Option Hash) :
    (∀ err, lib.ExecutableDataToBlock params versionedHashes beaconRoot = Except.error err →
      (el.NewPayloadV3 lib s params versionedHashes beaconRoot).result =
        Outcome.returned
          ({ Status := INVALID, LatestValidHash := none, ValidationError := none }, some err) ∧
      (el.NewPayloadV3 lib s params versionedHashes beaconRoot).trace =
        [Call.ExecutableDataToBlock params versionedHashes beaconRoot] ∧
      (el.NewPayloadV3 lib s params versionedHashes beaconRoot).state = s) ∧
    (∀ block s1 err,
      lib.ExecutableDataToBlock params versionedHashes beaconRoot = Except.ok block →
      el.Blockchain.InsertBlockWithoutSetHead s block = (s1, some err) →
      (el.NewPayloadV3 lib s params versionedHashes beaconRoot).result =
        Outcome.returned
          ({ Status := INVALID, LatestValidHash := none, ValidationError := none }, some err) ∧
      (el.NewPayloadV3 lib s params versionedHashes beaconRoot).trace =
        [Call.ExecutableDataToBlock params versionedHashes beaconRoot,
         Call.InsertBlockWithoutSetHead block] ∧
      (el.NewPayloadV3 lib s params versionedHashes beaconRoot).state = s1 ∧
      ((∀ s0 b, el.Blockchain.CurrentBlock (el.Blockchain.InsertBlockWithoutSetHead s0 b).1 =
          el.Blockchain.CurrentBlock s0) →
        el.Blockchain.CurrentBlock
          (el.NewPayloadV3 lib s params versionedHashes beaconRoot).state =
          el.Blockchain.CurrentBlock s)) ∧
    (∀ status err,
      (el.NewPayloadV3 lib s params versionedHashes beaconRoot).result =
        Outcome.returned (status, err) →
      status.Status = VALID →
      err = none ∧
      ∃ block s1 s2 canonHash,
        lib.ExecutableDataToBlock params versionedHashes beaconRoot = Except.ok block ∧
        el.Blockchain.InsertBlockWithoutSetHead s block = (s1, none) ∧
        el.Blockchain.SetCanonical s1 block = (s2, (canonHash, none))) := by
  refine ⟨?_, ?_, ?_⟩
  · intro err hconv
    simp only [ExecutionLayer.NewPayloadV3, hconv, STATUS_INVALID, and_self]
  · intro block s1 err hconv hins
    refine ⟨?_, ?_, ?_, ?_⟩
    · simp only [ExecutionLayer.NewPayloadV3, hconv, hins, STATUS_INVALID]
    · simp only [ExecutionLayer.NewPayloadV3, hconv, hins]
    · simp only [ExecutionLayer.NewPayloadV3, hconv, hins]
    · intro hkeep
      have h := hkeep s block
      rw [hins] at h
      simp only [ExecutionLayer.NewPayloadV3, hconv, hins]
      exact h
  · intro status err hres hvalid
    have hne : INVALID ≠ VALID := by decide
    cases hconv : lib.ExecutableDataToBlock params versionedHashes beaconRoot with
    | error e =>
      simp only [ExecutionLayer.NewPayloadV3, hconv, Outcome.returned.injEq,
        Prod.mk.injEq] at hres
      rw [← hres.1] at hvalid
      exact absurd hvalid hne
    | ok block =>
      obtain ⟨s1, ierr, hins⟩ : ∃ s1 ierr,
          el.Blockchain.InsertBlockWithoutSetHead s block = (s1, ierr) := ⟨_, _, rfl⟩
      cases ierr with
      | some e =>
        simp only [ExecutionLayer.NewPayloadV3, hconv, hins, Outcome.returned.injEq,
          Prod.mk.injEq] at hres
        rw [← hres.1] at hvalid
        exact absurd hvalid hne
      | none =>
        obtain ⟨s2, canonHash, cerr, hcan⟩ : ∃ s2 canonHash cerr,
            el.Blockchain.SetCanonical s1 block = (s2, (canonHash, cerr)) := ⟨_, _, _, rfl⟩
        cases cerr with
        | some e =>
          simp only [ExecutionLayer.NewPayloadV3, hconv, hins, hcan, Outcome.returned.injEq,
            Prod.mk.injEq] at hres
          rw [← hres.1] at hvalid
          exact absurd hvalid hne
        | none =>
          simp only [ExecutionLayer.NewPayloadV3, hconv, hins, hcan, Outcome.returned.injEq,
            Prod.mk.injEq] at hres
          exact ⟨hres.2.symm, block, s1, s2, canonHash, rfl, hins, hcan⟩

/-- C8 at concrete payloads: one whose conversion fails (block hash 99) and one
whose insertion fails (number 13). -/
theorem C8_invalid_on_first_failing_step_witness :
    (sampleEL.NewPayloadV3 sampleLib sampleWorld
        { samplePayload 99 with Number := 4 } [] none).result =
      Outcome.returned
        ({ Status := INVALID, LatestValidHash := none, ValidationError := none },
          some "blockhash mismatch") ∧
    (sampleEL.NewPayloadV3 sampleLib sampleWorld
        { samplePayload 99 with Number := 4 } [] none).state = sampleWorld ∧
    (sampleEL.NewPayloadV3 sampleLib sampleWorld (samplePayload 13) [] none).result =
      Outcome.returned
        ({ Status := INVALID, LatestValidHash := none, ValidationError := none },
          some "invalid block") ∧
    sampleEL.Blockchain.CurrentBlock
      (sampleEL.NewPayloadV3 sampleLib sampleWorld (samplePayload 13) [] none).state =
      sampleGenesis := by
  have h1 := (C8_invalid_on_first_failing_step sampleLib sampleEL sampleWorld
    { samplePayload 99 with Number := 4 } [] none).1 "blockhash mismatch" rfl
  have h2 := (C8_invalid_on_first_failing_step sampleLib sampleEL sampleWorld
    (samplePayload 13) [] none).2.1 (sampleBlock 13) sampleWorld "invalid block" rfl rfl
  refine ⟨h1.1, h1.2.2, h2.1, ?_⟩
  refine h2.2.2.2 ?_
  intro s0 b
  show (sampleEngine.InsertBlockWithoutSetHead s0 b).1.head = s0.head
  unfold sampleEngine
  dsimp only
  split <;> rfl

/-- C9: when conversion and `InsertBlockWithoutSetHead` succeed but
`SetCanonical` fails, `NewPayloadV3` returns status INVALID with the
canonicalization error and makes no further call: the world it leaves is the
one `SetCanonical` left after the insertion, nothing is rolled back.  Hence,
for an engine on which a successful insertion stores the block without moving
the current block and on which `SetCanonical` keeps stored blocks and, when it
fails, the current block, the current block after the call is the one from
before the call and the inserted block is still stored. -/
theorem C9_not_atomic_on_canonicalization_failure {σ : Type} (lib : Lib)
    (el : ExecutionLayer σ) (s : σ) (params : ExecutableData) (versionedHashes : List Hash)
    (beaconRoot : Option Hash) (block : Block) (s1 s2 : σ) (canonHash : Hash) (err : Error)
    (stored : σ → Block → Prop)
    (hconv : lib.ExecutableDataToBlock params versionedHashes beaconRoot = Except.ok block)
    (hins : el.Blockchain.InsertBlockWithoutSetHead s block = (s1, none))
    (hcan : el.Blockchain.SetCanonical s1 block = (s2, (canonHash, some err)))
    (hstores : ∀ s0 b s3, el.Blockchain.InsertBlockWithoutSetHead s0 b = (s3, none) →
      stored s3 b ∧ el.Blockchain.CurrentBlock s3 = el.Blockchain.CurrentBlock s0)
    (hkeeps : ∀ s0 b s3 r b0, el.Blockchain.SetCanonical s0 b = (s3, r) →
      stored s0 b0 → stored s3 b0)
    (hhead : ∀ s0 b s3 h e, el.Blockchain.SetCanonical s0 b = (s3, (h, some e)) →
      el.Blockchain.CurrentBlock s3 = el.Blockchain.CurrentBlock s0) :
    (el.NewPayloadV3 lib s params versionedHashes beaconRoot).result =
      Outcome.returned
        ({ Status := INVALID, LatestValidHash := none, ValidationError := none }, some err) ∧
    (el.NewPayloadV3 lib s params versionedHashes beaconRoot).trace =
      [Call.ExecutableDataToBlock params versionedHashes beaconRoot,
       Call.InsertBlockWithoutSetHead block, Call.SetCanonical block] ∧
    (el.NewPayloadV3 lib s params versionedHashes beaconRoot).state = s2 ∧
    el.Blockchain.CurrentBlock (el.NewPayloadV3 lib s params versionedHashes beaconRoot).state =
      el.Blockchain.CurrentBlock s ∧
    stored (el.NewPayloadV3 lib s params versionedHashes beaconRoot).state block := by
  have hstate : (el.NewPayloadV3 lib s params versionedHashes beaconRoot).state = s2 := by
    simp only [ExecutionLayer.NewPayloadV3, hconv, hins, hcan]
  refine ⟨?_, ?_, hstate, ?_, ?_⟩
  · simp only [ExecutionLayer.NewPayloadV3, hconv, hins, hcan, STATUS_INVALID]
  · simp only [ExecutionLayer.NewPayloadV3, hconv, hins, hcan]
  · rw [hstate, hhead s1 block s2 canonHash err hcan, (hstores s block s1 hins).2]
  · rw [hstate]
    exact hkeeps s1 block s2 _ block hcan (hstores s block s1 hins).1

/-- C9 at a concrete payload: the sample engine stores block 17 and refuses to
make it canonical. -/
theorem C9_not_atomic_on_canonicalization_failure_witness :
    (sampleEL.NewPayloadV3 sampleLib sampleWorld (samplePayload 17) [] none).result =
      Outcome.returned
        ({ Status := INVALID, LatestValidHash := none, ValidationError := none },
          some "cannot set canonical") ∧
    sampleEL.Blockchain.CurrentBlock
      (sampleEL.NewPayloadV3 sampleLib sampleWorld (samplePayload 17) [] none).state =
      sampleEL.Blockchain.CurrentBlock sampleWorld ∧
    sampleBlock 17 ∈
      (sampleEL.NewPayloadV3 sampleLib sampleWorld (samplePayload 17) [] none).state.store := by
  have h := C9_not_atomic_on_canonicalization_failure sampleLib sampleEL sampleWorld
    (samplePayload 17) [] none (sampleBlock 17) { sampleWorld with store := [sampleBlock 17] }
    { sampleWorld with store := [sampleBlock 17] } 0 "cannot set canonical"
    (fun w b => b ∈ w.store) rfl rfl rfl
    (by
      intro s0 b s3 h
      simp only [ExecutionLayer.Blockchain, sampleEL, sampleEngine] at h ⊢
      split at h
      · simp at h
      · simp only [Prod.mk.injEq, and_true] at h
        subst h
        simp)
    (by
      intro s0 b s3 r b0 h hb
      simp only [ExecutionLayer.Blockchain, sampleEL, sampleEngine] at h
      split at h
      · simp only [Prod.mk.injEq] at h
        rw [← h.1]; exact hb
      · simp only [Prod.mk.injEq] at h
        rw [← h.1]; exact hb)
    (by
      intro s0 b s3 h e hc
      simp only [ExecutionLayer.Blockchain, sampleEL, sampleEngine] at hc ⊢
      split at hc
      · simp only [Prod.mk.injEq] at hc
        rw [← hc.1]
      · simp at hc)
  exact ⟨h.1, h.2.2.2.1, h.2.2.2.2⟩

/-- C12: each of `WriteGenesisState`, `InsertBlockAndSetHead` and
`InsertBlockWithoutSetHead` first calls `PreparePlugins` with the supplied
context and then the underlying chain operation, which runs on the world that
`PreparePlugins` left; so whenever `PreparePlugins` installs the context it is
given, the underlying operation observes exactly the context of this call,
whatever an earlier call left.  The result is exactly what the underlying
operation returned and the world is the one it left. -/
theorem C12_context_installed_before_delegation {σ : Type} (lib : Lib)
    (wbc : WrappedBlockchain σ) (s : σ) (ctx : Context) (installed : σ → Option Context)
    (hinstall : ∀ s0 c, installed (wbc.Blockchain.PreparePlugins s0 c) = some c) :
    installed (wbc.Blockchain.PreparePlugins s ctx) = some ctx ∧
    (∀ genState : Genesis,
      (wbc.WriteGenesisState lib s ctx genState).trace =
        [Call.PreparePlugins ctx, Call.WriteGenesisBlock (lib.GenesisToBlock genState)] ∧
      (wbc.WriteGenesisState lib s ctx genState).result =
        Outcome.returned (wbc.Blockchain.WriteGenesisBlock
          (wbc.Blockchain.PreparePlugins s ctx) (lib.GenesisToBlock genState)).2 ∧
      (wbc.WriteGenesisState lib s ctx genState).state =
        (wbc.Blockchain.WriteGenesisBlock
          (wbc.Blockchain.PreparePlugins s ctx) (lib.GenesisToBlock genState)).1) ∧
    (∀ block : Block,
      (wbc.InsertBlockAndSetHead s ctx block).trace =
        [Call.PreparePlugins ctx, Call.InsertBlockAndSetHead block] ∧
      (wbc.InsertBlockAndSetHead s ctx block).result =
        Outcome.returned (wbc.Blockchain.InsertBlockAndSetHead
          (wbc.Blockchain.PreparePlugins s ctx) block).2 ∧
      (wbc.InsertBlockAndSetHead s ctx block).state =
        (wbc.Blockchain.InsertBlockAndSetHead (wbc.Blockchain.PreparePlugins s ctx) block).1) ∧
    (∀ block : Block,
      (wbc.InsertBlockWithoutSetHead s ctx block).trace =
        [Call.PreparePlugins ctx, Call.InsertBlockWithoutSetHead block] ∧
      (wbc.InsertBlockWithoutSetHead s ctx block).result =
        Outcome.returned (wbc.Blockchain.InsertBlockWithoutSetHead
          (wbc.Blockchain.PreparePlugins s ctx) block).2 ∧
      (wbc.InsertBlockWithoutSetHead s ctx block).state =
        (wbc.Blockchain.InsertBlockWithoutSetHead
          (wbc.Blockchain.PreparePlugins s ctx) block).1) :=
  ⟨hinstall s ctx, fun _ => ⟨rfl, rfl, rfl⟩, fun _ => ⟨rfl, rfl, rfl⟩,
    fun _ => ⟨rfl, rfl, rfl⟩⟩

/-- C12 at a concrete world: a world in which an earlier call left another
context installed. -/
theorem C12_context_installed_before_delegation_witness :
    ((sampleWbc none none).Blockchain.PreparePlugins
        { sampleWorld with pluginCtx := some (unmetered sampleCtx) } sampleCtx).pluginCtx =
      some sampleCtx ∧
    ((sampleWbc none none).InsertBlockWithoutSetHead
        { sampleWorld with pluginCtx := some (unmetered sampleCtx) } sampleCtx
        (sampleBlock 13)).result = Outcome.returned ([], some "invalid block") := by
  have h := C12_context_installed_before_delegation sampleLib (sampleWbc none none)
    { sampleWorld with pluginCtx := some (unmetered sampleCtx) } sampleCtx
    (fun w => w.pluginCtx) (fun _ _ => rfl)
  exact ⟨h.1, (h.2.2.2 (sampleBlock 13)).2.1⟩

/-- C13 (counterexample): in the sample world with a post-block hook configured,
`InsertBlockAndSetHead` of block 3 succeeds and makes block 3 the head, yet the
hook is not invoked: the trace has no hook call and the hook log of the world
stays empty. -/
theorem C13_hook_not_invoked_on_set_head :
    (sampleWbc none none).hook = some sampleHook ∧
    ((sampleWbc none none).InsertBlockAndSetHead sampleWorld sampleCtx (sampleBlock 3)).result =
      Outcome.returned none ∧
    ((sampleWbc none none).InsertBlockAndSetHead sampleWorld sampleCtx
      (sampleBlock 3)).state.head = (sampleBlock 3).header ∧
    hookCalls ((sampleWbc none none).InsertBlockAndSetHead sampleWorld sampleCtx
      (sampleBlock 3)).trace = [] ∧
    ((sampleWbc none none).InsertBlockAndSetHead sampleWorld sampleCtx
      (sampleBlock 3)).state.hooked = [] :=
  ⟨rfl, rfl, rfl, rfl, rfl⟩

/-- C13 (amended): on the head-setting path the chain bridge adds no callback.
For every hook setting and every outcome of the insertion,
`InsertBlockAndSetHead` makes exactly two calls, `PreparePlugins` and the
underlying `InsertBlockAndSetHead`; the post-block hook is invoked zero times
and the world is the one the underlying insertion left. -/
theorem C13_set_head_never_invokes_hook {σ : Type} (wbc : WrappedBlockchain σ) (s : σ)
    (ctx : Context) (block : Block) :
    hookCalls (wbc.InsertBlockAndSetHead s ctx block).trace = [] ∧
    (wbc.InsertBlockAndSetHead s ctx block).trace =
      [Call.PreparePlugins ctx, Call.InsertBlockAndSetHead block] ∧
    (wbc.InsertBlockAndSetHead s ctx block).state =
      (wbc.Blockchain.InsertBlockAndSetHead (wbc.Blockchain.PreparePlugins s ctx) block).1 :=
  ⟨rfl, rfl, rfl⟩

/-- The inner loop assigns from the first envelope message, if any. -/
theorem scanMsgs_fst (lib : Lib) (envelope : Option ExecutionPayloadEnvelope) (msgs : List Msg) :
    (scanMsgs lib envelope msgs).1 =
      match firstEnvelopeMsg msgs with
      | none => envelope
      | some env => lib.UnwrapPayload env := by
  induction msgs with
  | nil => rfl
  | cons m rest ih =>
    cases m with
    | payloadEnvelope env => rfl
    | other tag => simpa only [scanMsgs, firstEnvelopeMsg] using ih

/-- One step of the outer loop, on the value of `envelope` alone. -/
theorem scanTxs_cons_fst {σ : Type} (lib : Lib) (app : App σ)
    (envelope : Option ExecutionPayloadEnvelope) (tx : Bytes) (txs : List Bytes) :
    (scanTxs lib app envelope (tx :: txs)).1 =
      (scanTxs lib app
        (match envelopeMsgOf app tx with
         | none => envelope
         | some env => lib.UnwrapPayload env) txs).1 := by
  cases hdec : app.TxDecode tx with
  | error e => simp only [scanTxs, envelopeMsgOf, hdec]
  | ok sdkTx => simp only [scanTxs, envelopeMsgOf, hdec, scanMsgs_fst]

/-- A transaction that fails to decode leaves the scan where it was. -/
theorem scanTxs_skip_undecodable {σ : Type} (lib : Lib) (app : App σ)
    (envelope : Option ExecutionPayloadEnvelope) (tx : Bytes) (txs : List Bytes)
    (h : decodes app tx = false) :
    (scanTxs lib app envelope (tx :: txs)).1 = (scanTxs lib app envelope txs).1 := by
  cases hdec : app.TxDecode tx with
  | error e => simp only [scanTxs, hdec]
  | ok sdkTx => simp [decodes, hdec] at h

/-- The scan selects the same envelope from the decodable transactions alone. -/
theorem scanTxs_filter_decodes {σ : Type} (lib : Lib) (app : App σ) (txs : List Bytes) :
    ∀ envelope, (scanTxs lib app envelope txs).1 =
      (scanTxs lib app envelope (txs.filter (decodes app))).1 := by
  induction txs with
  | nil => intro envelope; rfl
  | cons tx rest ih =>
    intro envelope
    cases hd : decodes app tx with
    | false =>
      rw [scanTxs_skip_undecodable lib app envelope tx rest hd, List.filter_cons_of_neg (by simp [hd])]
      exact ih envelope
    | true =>
      rw [List.filter_cons_of_pos hd, scanTxs_cons_fst, scanTxs_cons_fst]
      exact ih _

/-- The scan, started from any value, ends with the unwrapped last envelope
message, or with the start value when there is no envelope message. -/
theorem scanTxs_fst_eq_last {σ : Type} (lib : Lib) (app : App σ) (txs : List Bytes) :
    ∀ envelope, (scanTxs lib app envelope txs).1 =
      match (envelopeMsgs app txs).getLast? with
      | none => envelope
      | some env => lib.UnwrapPayload env := by
  induction txs with
  | nil => intro envelope; rfl
  | cons tx rest ih =>
    intro envelope
    rw [scanTxs_cons_fst, ih]
    cases hm : envelopeMsgOf app tx with
    | none => simp only [envelopeMsgs, List.filterMap_cons, hm]
    | some env =>
      simp only [envelopeMsgs, List.filterMap_cons, hm, List.getLast?_cons]
      cases List.getLast? (List.filterMap (envelopeMsgOf app) rest) <;> rfl

/-- The scan decodes every transaction of the list, once and in order. -/
theorem scanTxs_decodes_all {σ : Type} (lib : Lib) (app : App σ) (txs : List Bytes) :
    ∀ envelope, decodedTxs (scanTxs lib app envelope txs).2 = txs := by
  have hmsgs : ∀ (envelope : Option ExecutionPayloadEnvelope) (msgs : List Msg) (u : List Call),
      decodedTxs ((scanMsgs lib envelope msgs).2 ++ u) = decodedTxs u := by
    intro envelope msgs u
    induction msgs with
    | nil => rfl
    | cons m rest ih =>
      cases m with
      | payloadEnvelope env => rfl
      | other tag => simpa only [scanMsgs] using ih
  induction txs with
  | nil => intro envelope; rfl
  | cons tx rest ih =>
    intro envelope
    cases hdec : app.TxDecode tx with
    | error e => simp only [scanTxs, hdec, decodedTxs, ih]
    | ok sdkTx => simp only [scanTxs, hdec, decodedTxs, hmsgs, ih]

/-- C15: the envelope selected by `ProcessProposal` from the transaction list
equals the envelope selected from the sub-list of transactions that decode; so
inserting or removing an undecodable transaction anywhere in the list does not
change the selected envelope; and a proposal whose prelude succeeds and all of
whose transactions fail to decode is accepted with a nil error, after one
`TxDecode` call per transaction and nothing else. -/
theorem C15_undecodable_transactions_are_skipped {σ : Type} (lib : Lib)
    (wbc : WrappedBlockchain σ) (s : σ) (ctx : Context) (req : RequestProcessProposal) :
    selectedEnvelope lib wbc req =
      selectedEnvelope lib wbc { req with Txs := req.Txs.filter (decodes wbc.app) } ∧
    (∀ front back bad, decodes wbc.app bad = false →
      selectedEnvelope lib wbc { req with Txs := front ++ bad :: back } =
        selectedEnvelope lib wbc { req with Txs := front ++ back }) ∧
    (preludeSucceeds wbc s ctx req →
      (∀ tx ∈ req.Txs, decodes wbc.app tx = false) →
      (wbc.ProcessProposal lib s ctx req).result =
        Outcome.returned (some { Status := ProposalStatus.ACCEPT }, none) ∧
      (wbc.ProcessProposal lib s ctx req).trace =
        preludeTrace wbc s ctx req ++ req.Txs.map Call.TxDecode) := by
  refine ⟨scanTxs_filter_decodes lib wbc.app req.Txs none, ?_, ?_⟩
  · intro front back bad hbad
    show (scanTxs lib wbc.app none (front ++ bad :: back)).1 =
      (scanTxs lib wbc.app none (front ++ back)).1
    rw [scanTxs_filter_decodes lib wbc.app (front ++ bad :: back),
      scanTxs_filter_decodes lib wbc.app (front ++ back), List.filter_append,
      List.filter_append, List.filter_cons_of_neg (by simp [hbad])]
  · intro hprelude hall
    have hno : ∀ tx ∈ req.Txs, ¬ carriesEnvelope wbc.app tx := by
      intro tx htx ⟨sdkTx, env, hdec, _⟩
      have h := hall tx htx
      simp [decodes, hdec] at h
    have hscan := scanTxs_no_envelope lib wbc.app none req.Txs hno
    have hsel : selectedEnvelope lib wbc req = none := by simp [selectedEnvelope, hscan]
    have htr : scanTrace lib wbc req = req.Txs.map Call.TxDecode := by simp [scanTrace, hscan]
    rw [ProcessProposal_prelude_ok lib wbc s ctx req hprelude, hsel, htr, processEnvelope_none]
    exact ⟨rfl, by simp⟩

/-- C15 at a concrete proposal: undecodable transactions around one envelope,
and a proposal of undecodable transactions only. -/
theorem C15_undecodable_transactions_are_skipped_witness :
    selectedEnvelope sampleLib (sampleWbc none none) (sampleReq [[], [1, 3], [0, 5]]) =
      selectedEnvelope sampleLib (sampleWbc none none) (sampleReq [[], [1, 3]]) ∧
    ((sampleWbc none none).ProcessProposal sampleLib sampleWorld sampleCtx
      (sampleReq [[], [0, 5]])).result =
      Outcome.returned (some { Status := ProposalStatus.ACCEPT }, none) := by
  have h := C15_undecodable_transactions_are_skipped sampleLib (sampleWbc none none) sampleWorld
    sampleCtx (sampleReq [[], [0, 5]])
  refine ⟨h.2.1 [[], [1, 3]] [] [0, 5] rfl, (h.2.2 ⟨rfl, rfl⟩ ?_).1⟩
  intro tx htx
  simp only [sampleReq, List.mem_cons, List.mem_singleton, List.not_mem_nil, or_false] at htx
  rcases htx with rfl | rfl <;> rfl

/-- C16: after a successful prelude, `ProcessProposal` calls `RefundGas` on the
transaction gas meter and on the block gas meter with exactly the amount each
reports as consumed; each refund succeeds (the amount never exceeds the
consumption, so no negative-gas panic) and leaves a meter that reads zero
consumed gas; the run goes on to the scan; and every context handed to the
chain object afterwards has an infinite gas meter with nothing consumed and
zero-cost KV and transient-KV gas configurations. -/
theorem C16_prelude_gas_refunded_then_unmetered {σ : Type} (lib : Lib)
    (wbc : WrappedBlockchain σ) (s : σ) (ctx : Context) (req : RequestProcessProposal)
    (hprelude : preludeSucceeds wbc s ctx req) :
    (∃ rest, (wbc.ProcessProposal lib s ctx req).trace =
      [Call.PreBlocker ctx (finalizeRequest req),
       Call.BeginBlocker (ctx.afterHook (afterPreBlocker wbc s ctx req)),
       Call.RefundGas false (preludeContext wbc s ctx req).gasMeter.GasConsumed,
       Call.RefundGas true (preludeContext wbc s ctx req).blockGasMeter.GasConsumed] ++
      scanTrace lib wbc req ++ rest) ∧
    (∃ gm, (preludeContext wbc s ctx req).gasMeter.RefundGas
        (preludeContext wbc s ctx req).gasMeter.GasConsumed = some gm ∧ gm.GasConsumed = 0) ∧
    (∃ bgm, (preludeContext wbc s ctx req).blockGasMeter.RefundGas
        (preludeContext wbc s ctx req).blockGasMeter.GasConsumed = some bgm ∧
      bgm.GasConsumed = 0) ∧
    (wbc.ProcessProposal lib s ctx req).result ≠ Outcome.panicked "negative gas consumed" ∧
    (∀ ictx ∈ preparedContexts (wbc.ProcessProposal lib s ctx req).trace,
      ictx.gasMeter = NewInfiniteGasMeter ∧ ictx.gasMeter.limit = none ∧
      ictx.gasMeter.GasConsumed = 0 ∧ ictx.blockGasMeter.GasConsumed = 0 ∧
      ictx.kvGasConfig = GasConfig.zero ∧ ictx.transientKVGasConfig = GasConfig.zero) := by
  have hrun := ProcessProposal_prelude_ok lib wbc s ctx req hprelude
  have hp := preludeTrace_inert wbc s ctx req
  have hs : ∀ c ∈ scanTrace lib wbc req,
      c.isConversion = false ∧ c.isChainCall = false ∧ c.isHook = false :=
    scanTxs_trace_inert lib wbc.app none req.Txs
  have hprep : ∀ (t : List Call),
      (∀ c ∈ t, c.isConversion = false ∧ c.isChainCall = false ∧ c.isHook = false) →
      ∀ u, preparedContexts (t ++ u) = preparedContexts u := by
    intro t
    induction t with
    | nil => intro _ u; rfl
    | cons a t ih =>
      intro h u
      have hat := ih (fun c hc => h c (List.mem_cons_of_mem _ hc)) u
      have hc := (h a (List.mem_cons_self _ _)).2.1
      cases a <;> first | exact hat | simp [Call.isChainCall] at hc
  -- what the last phase does, by cases on the selected envelope
  have hlast : (processEnvelope lib wbc (afterBeginBlocker wbc s ctx req).state
        (insertionContext wbc s ctx req) (selectedEnvelope lib wbc req)).result ≠
        Outcome.panicked "negative gas consumed" ∧
      ∀ ictx ∈ preparedContexts (processEnvelope lib wbc (afterBeginBlocker wbc s ctx req).state
        (insertionContext wbc s ctx req) (selectedEnvelope lib wbc req)).trace,
        ictx = insertionContext wbc s ctx req := by
    cases selectedEnvelope lib wbc req with
    | none =>
      rw [processEnvelope_none]
      exact ⟨by simp [accept], by intro ictx h; simp [preparedContexts] at h⟩
    | some envelope =>
      obtain ⟨pl⟩ := envelope
      cases pl with
      | none =>
        rw [processEnvelope_no_payload]
        exact ⟨by simp, by intro ictx h; simp [preparedContexts] at h⟩
      | some payload =>
        cases hconv : lib.ExecutableDataToBlock payload [] none with
        | error err =>
          rw [processEnvelope_conversion_fails lib wbc _ _ payload err hconv]
          exact ⟨by simp [reject], by intro ictx h; simp [preparedContexts] at h⟩
        | ok block =>
          obtain ⟨s2, receipts, ierr, hins⟩ : ∃ s2 receipts ierr,
              wbc.Blockchain.InsertBlockWithoutSetHead
                (wbc.Blockchain.PreparePlugins (afterBeginBlocker wbc s ctx req).state
                  (insertionContext wbc s ctx req)) block = (s2, (receipts, ierr)) :=
            ⟨_, _, _, rfl⟩
          cases ierr with
          | some err =>
            rw [processEnvelope_insertion_fails lib wbc _ s2 _ payload block receipts
              err hconv hins]
            exact ⟨by simp [reject], by intro ictx h; simpa [preparedContexts] using h⟩
          | none =>
            cases hhook : wbc.hook with
            | none =>
              rw [processEnvelope_inserted_no_hook lib wbc _ s2 _ payload block
                receipts hconv hins hhook]
              exact ⟨by simp [accept], by intro ictx h; simpa [preparedContexts] using h⟩
            | some hook =>
              rw [processEnvelope_inserted_hook lib wbc _ s2 _ payload block receipts hook
                hconv hins hhook]
              exact ⟨by simp [accept], by intro ictx h; simpa [preparedContexts] using h⟩
  refine ⟨⟨_, by rw [hrun]; rfl⟩, ⟨_, GasMeter.RefundGas_consumed _, rfl⟩,
    ⟨_, GasMeter.RefundGas_consumed _, rfl⟩, ?_, ?_⟩
  · rw [hrun]; exact hlast.1
  · intro ictx hmem
    rw [hrun] at hmem
    have hmem2 : ictx ∈ preparedContexts (processEnvelope lib wbc
        (afterBeginBlocker wbc s ctx req).state (insertionContext wbc s ctx req)
        (selectedEnvelope lib wbc req)).trace := by
      have h1 := hprep _ hp (scanTrace lib wbc req ++ (processEnvelope lib wbc
        (afterBeginBlocker wbc s ctx req).state (insertionContext wbc s ctx req)
        (selectedEnvelope lib wbc req)).trace)
      have h2 := hprep _ hs (processEnvelope lib wbc
        (afterBeginBlocker wbc s ctx req).state (insertionContext wbc s ctx req)
        (selectedEnvelope lib wbc req)).trace
      rw [← h2, ← h1, ← List.append_assoc]
      exact hmem
    rw [hlast.2 ictx hmem2]
    exact ⟨rfl, rfl, rfl, rfl, rfl, rfl⟩

/-- C16 at a concrete proposal: meters that enter with consumption 4 and 9 and
hooks that consume 7 and 3 more. -/
theorem C16_prelude_gas_refunded_then_unmetered_witness :
    (∃ rest, ((sampleWbc none none).ProcessProposal sampleLib sampleWorld sampleCtx
      (sampleReq [[1, 3]])).trace =
      [Call.PreBlocker sampleCtx (finalizeRequest (sampleReq [[1, 3]])),
       Call.BeginBlocker { sampleCtx with gasMeter := { limit := some 1000, consumed := 11 } },
       Call.RefundGas false 11, Call.RefundGas true 12] ++
      [Call.TxDecode [1, 3], Call.UnwrapPayload { Data := [3] }] ++ rest) ∧
    ((sampleWbc none none).ProcessProposal sampleLib sampleWorld sampleCtx
      (sampleReq [[1, 3]])).result ≠ Outcome.panicked "negative gas consumed" :=
  ⟨(C16_prelude_gas_refunded_then_unmetered sampleLib (sampleWbc none none) sampleWorld
      sampleCtx (sampleReq [[1, 3]]) ⟨rfl, rfl⟩).1,
   (C16_prelude_gas_refunded_then_unmetered sampleLib (sampleWbc none none) sampleWorld
      sampleCtx (sampleReq [[1, 3]]) ⟨rfl, rfl⟩).2.2.2.1⟩

/-- C17: the scan of `ProcessProposal` decodes every transaction of the
proposal, in order, and the envelope it ends with is the unwrapped payload of
the first envelope message of the last decodable transaction that holds one
(nil when no transaction holds one): within a transaction the first envelope
message wins, across transactions a later one overwrites an earlier one.  After
a successful prelude the proposal is treated as having no envelope (accepted
without any conversion) exactly when that final value is nil. -/
theorem C17_last_transaction_envelope_wins {σ : Type} (lib : Lib)
    (wbc : WrappedBlockchain σ) (s : σ) (ctx : Context) (req : RequestProcessProposal) :
    selectedEnvelope lib wbc req = lastEnvelope lib wbc.app req.Txs ∧
    decodedTxs (scanTrace lib wbc req) = req.Txs ∧
    (∀ front tx back env,
      req.Txs = front ++ tx :: back → envelopeMsgOf wbc.app tx = some env →
      (∀ later ∈ back, envelopeMsgOf wbc.app later = none) →
      selectedEnvelope lib wbc req = lib.UnwrapPayload env) ∧
    (∀ (sdkTx : Tx) front env back,
      sdkTx.GetMsgs = front ++ Msg.payloadEnvelope env :: back →
      (∀ m ∈ front, ∃ tag, m = Msg.other tag) →
      firstEnvelopeMsg sdkTx.GetMsgs = some env) ∧
    (preludeSucceeds wbc s ctx req →
      (selectedEnvelope lib wbc req = none ↔
        ((wbc.ProcessProposal lib s ctx req).result =
            Outcome.returned (some { Status := ProposalStatus.ACCEPT }, none) ∧
          convertedPayloads (wbc.ProcessProposal lib s ctx req).trace = []))) := by
  have hlast : selectedEnvelope lib wbc req = lastEnvelope lib wbc.app req.Txs :=
    scanTxs_fst_eq_last lib wbc.app req.Txs none
  refine ⟨hlast, scanTxs_decodes_all lib wbc.app req.Txs none, ?_, ?_, ?_⟩
  · intro front tx back env htxs htx hback
    have hnone : List.filterMap (envelopeMsgOf wbc.app) back = [] := by
      rw [List.filterMap_eq_nil_iff]
      exact hback
    rw [hlast, lastEnvelope, envelopeMsgs, htxs, List.filterMap_append, List.filterMap_cons,
      htx, hnone, List.getLast?_append]
    rfl
  · intro sdkTx front env back hmsgs hfront
    rw [hmsgs]
    clear hmsgs
    induction front with
    | nil => rfl
    | cons m rest ih =>
      obtain ⟨tag, rfl⟩ := hfront m (List.mem_cons_self _ _)
      exact ih fun m2 hm2 => hfront m2 (List.mem_cons_of_mem _ hm2)
  · intro hprelude
    have hp := preludeTrace_inert wbc s ctx req
    have hs : ∀ c ∈ scanTrace lib wbc req,
        c.isConversion = false ∧ c.isChainCall = false ∧ c.isHook = false :=
      scanTxs_trace_inert lib wbc.app none req.Txs
    have hcp : ∀ u, convertedPayloads (preludeTrace wbc s ctx req ++ scanTrace lib wbc req ++ u) =
        convertedPayloads u := by
      intro u
      rw [List.append_assoc, convertedPayloads_append_inert _ hp,
        convertedPayloads_append_inert _ hs]
    have hrun := ProcessProposal_prelude_ok lib wbc s ctx req hprelude
    rw [hrun]
    show _ ↔ (_ ∧ convertedPayloads (preludeTrace wbc s ctx req ++ scanTrace lib wbc req ++ _) = [])
    rw [hcp]
    cases hsel : selectedEnvelope lib wbc req with
    | none =>
      rw [processEnvelope_none]
      exact ⟨fun _ => ⟨rfl, rfl⟩, fun _ => rfl⟩
    | some envelope =>
      refine ⟨fun h => (by cases h), ?_⟩
      rintro ⟨hres, hconvs⟩
      exfalso
      obtain ⟨pl⟩ := envelope
      cases pl with
      | none =>
        rw [processEnvelope_no_payload] at hres
        cases hres
      | some payload =>
        cases hconv : lib.ExecutableDataToBlock payload [] none with
        | error err =>
          rw [processEnvelope_conversion_fails lib wbc _ _ payload err hconv] at hconvs
          simp [convertedPayloads] at hconvs
        | ok block =>
          obtain ⟨s2, receipts, ierr, hins⟩ : ∃ s2 receipts ierr,
              wbc.Blockchain.InsertBlockWithoutSetHead
                (wbc.Blockchain.PreparePlugins (afterBeginBlocker wbc s ctx req).state
                  (insertionContext wbc s ctx req)) block = (s2, (receipts, ierr)) :=
            ⟨_, _, _, rfl⟩
          cases ierr with
          | some err =>
            rw [processEnvelope_insertion_fails lib wbc _ s2 _ payload block receipts
              err hconv hins] at hconvs
            simp [convertedPayloads] at hconvs
          | none =>
            cases hhook : wbc.hook with
            | none =>
              rw [processEnvelope_inserted_no_hook lib wbc _ s2 _ payload block
                receipts hconv hins hhook] at hconvs
              simp [convertedPayloads] at hconvs
            | some hook =>
              rw [processEnvelope_inserted_hook lib wbc _ s2 _ payload block receipts hook
                hconv hins hhook] at hconvs
              simp [convertedPayloads] at hconvs

/-- C17 at concrete proposals: of two envelopes the later one is selected, and a
later envelope message that fails to unwrap leaves no envelope at all. -/
theorem C17_last_transaction_envelope_wins_witness :
    selectedEnvelope sampleLib (sampleWbc none none) (sampleReq [[1, 3], [1, 5, 9], [1, 2]]) =
      some { ExecutionPayload := some (samplePayload 5) } ∧
    (selectedEnvelope sampleLib (sampleWbc none none) (sampleReq [[1, 3], [1, 7]]) = none ↔
      (((sampleWbc none none).ProcessProposal sampleLib sampleWorld sampleCtx
          (sampleReq [[1, 3], [1, 7]])).result =
          Outcome.returned (some { Status := ProposalStatus.ACCEPT }, none) ∧
        convertedPayloads ((sampleWbc none none).ProcessProposal sampleLib sampleWorld sampleCtx
          (sampleReq [[1, 3], [1, 7]])).trace = [])) :=
  ⟨(C17_last_transaction_envelope_wins sampleLib (sampleWbc none none) sampleWorld sampleCtx
      (sampleReq [[1, 3], [1, 5, 9], [1, 2]])).2.2.1 [[1, 3]] [1, 5, 9] [[1, 2]] ⟨[5]⟩ rfl rfl
      (by
        intro later h
        simp only [List.mem_singleton] at h
        subst h
        rfl),
   (C17_last_transaction_envelope_wins sampleLib (sampleWbc none none) sampleWorld sampleCtx
      (sampleReq [[1, 3], [1, 7]])).2.2.2.2 ⟨rfl, rfl⟩⟩

/-- Below `2 ^ 63` the conversion `int64(x)` keeps the value. -/
theorem int64OfUint64_of_lt (x : Nat) (h : x < 2 ^ 63) : int64OfUint64 x = (x : Int) := by
  have hmod : x % 2 ^ 64 = x := Nat.mod_eq_of_lt (by omega)
  simp only [int64OfUint64, hmod, h, if_true]

/-- C11: the runtime object that `New` allocates at pointer `p` has its lock
field created as the zero mutex, and the only lock handle `New` hands out is the
address of that field, given to the mempool wrapper; the only lock handle
`Build` hands out is the address of the same field of the same object, given to
the miner wrapper, so both wrappers hold the same lock; `Build` leaves the lock
field and the mempool wrapper as they are; `SetupServices`, `StartServices` and
`LoadLastState` hand out no lock handle and leave the whole object, its lock
field included, unchanged. -/
theorem C11_single_block_builder_lock {σ : Type} (env : Runtime.Env σ) (p : Runtime.Ptr) :
    (∀ s cfg logger obj,
      (Runtime.New env p s cfg logger).result = Outcome.returned obj →
      Runtime.lockHandles (Runtime.New env p s cfg logger).trace = [{ owner := p }] ∧
      obj.blockBuilderMu = Runtime.RWMutex.zero ∧
      ∀ s2 cosmHandler allowedValMsgs hook prepareProposal,
        Runtime.lockHandles
          (obj.Build env p s2 cosmHandler allowedValMsgs hook prepareProposal).trace =
          Runtime.lockHandles (Runtime.New env p s cfg logger).trace) ∧
    (∀ (self : Runtime.Polaris) s cosmHandler allowedValMsgs hook prepareProposal,
      Runtime.lockHandles
        (self.Build env p s cosmHandler allowedValMsgs hook prepareProposal).trace =
        [{ owner := p }] ∧
      (self.Build env p s cosmHandler allowedValMsgs hook prepareProposal).self.blockBuilderMu =
        self.blockBuilderMu ∧
      (self.Build env p s cosmHandler allowedValMsgs hook prepareProposal).self.WrappedTxPool =
        self.WrappedTxPool) ∧
    (∀ (self : Runtime.Polaris) s clientCtx,
      Runtime.lockHandles (self.SetupServices env s clientCtx).trace = [] ∧
      (self.SetupServices env s clientCtx).self = self) ∧
    (∀ (self : Runtime.Polaris) (s : σ),
      Runtime.lockHandles (self.StartServices s).trace = [] ∧
      (self.StartServices s).self = self) ∧
    (∀ (self : Runtime.Polaris) s cms appHeight,
      Runtime.lockHandles (self.LoadLastState env s cms appHeight).trace = [] ∧
      (self.LoadLastState env s cms appHeight).self = self) := by
  have hbuild : ∀ (self : Runtime.Polaris) s cosmHandler allowedValMsgs hook prepareProposal,
      Runtime.lockHandles
        (self.Build env p s cosmHandler allowedValMsgs hook prepareProposal).trace =
        [{ owner := p }] ∧
      (self.Build env p s cosmHandler allowedValMsgs hook prepareProposal).self.blockBuilderMu =
        self.blockBuilderMu ∧
      (self.Build env p s cosmHandler allowedValMsgs hook prepareProposal).self.WrappedTxPool =
        self.WrappedTxPool := by
    intro self s cosmHandler allowedValMsgs hook prepareProposal
    simp only [Runtime.Polaris.Build]
    split <;> exact ⟨rfl, rfl, rfl⟩
  refine ⟨?_, hbuild, ?_, fun _ _ => ⟨rfl, rfl⟩, fun _ _ _ _ => ⟨rfl, rfl⟩⟩
  · intro s cfg logger obj hres
    have hnew : Runtime.lockHandles (Runtime.New env p s cfg logger).trace = [{ owner := p }] ∧
        obj.blockBuilderMu = Runtime.RWMutex.zero := by
      simp only [Runtime.New] at hres ⊢
      split at hres
      · cases hres
      · rename_i el hel
        simp only [hel]
        cases hres
        exact ⟨rfl, rfl⟩
    refine ⟨hnew.1, hnew.2, ?_⟩
    intro s2 cosmHandler allowedValMsgs hook prepareProposal
    rw [hnew.1]
    exact (hbuild obj s2 cosmHandler allowedValMsgs hook prepareProposal).1
  · intro self s clientCtx
    exact ⟨rfl, rfl⟩

/-- C11 at a concrete runtime: the sample runtime allocated at pointer `1`. -/
theorem C11_single_block_builder_lock_witness :
    Runtime.lockHandles (Runtime.New Runtime.sampleEnv 1 Runtime.sampleRuntimeWorld
      Runtime.sampleConfig 9).trace = [{ owner := 1 }] ∧
    Runtime.lockHandles (Runtime.sampleRuntime.Build Runtime.sampleEnv 1
      Runtime.sampleRuntimeWorld 0 0 0 0).trace =
      Runtime.lockHandles (Runtime.New Runtime.sampleEnv 1 Runtime.sampleRuntimeWorld
        Runtime.sampleConfig 9).trace := by
  have h := (C11_single_block_builder_lock Runtime.sampleEnv 1).1 Runtime.sampleRuntimeWorld
    Runtime.sampleConfig 9 Runtime.sampleRuntime rfl
  exact ⟨h.1, h.2.2 Runtime.sampleRuntimeWorld 0 0 0 0⟩

/-- C14 (counterexample): for the persisted height `2 ^ 63`, a valid `uint64`,
`LoadLastState` builds, installs and primes a query context whose block height
is `-2 ^ 63`, not the height it then loads the chain at. -/
theorem C14_height_wraps_at_two_pow_63 :
    (2 : Nat) ^ 63 < 2 ^ 64 ∧
    (Runtime.sampleRuntime.LoadLastState Runtime.sampleEnv Runtime.sampleRuntimeWorld 77
      (2 ^ 63)).trace =
      [Runtime.RuntimeCall.SetLatestQueryContext (Runtime.lastStateContext 77 (2 ^ 63)),
       Runtime.RuntimeCall.PrimePlugins (Runtime.lastStateContext 77 (2 ^ 63)),
       Runtime.RuntimeCall.LoadLastState (2 ^ 63)] ∧
    (Runtime.lastStateContext 77 (2 ^ 63)).blockHeight = -(2 : Int) ^ 63 ∧
    (Runtime.lastStateContext 77 (2 ^ 63)).blockHeight ≠ ((2 ^ 63 : Nat) : Int) := by
  refine ⟨by decide, rfl, by decide, by decide⟩

/-- C14 (amended): for every multi-store `cms` and every height `H` below
`2 ^ 63`, `LoadLastState(cms, H)` builds a query context over exactly `cms` with
block height exactly `H` and infinite gas meters, installs it as the latest query
context, primes the plugins with it and then calls the chain's
`LoadLastState(H)`, in this order; so when installing sets the latest context
and priming keeps it, the load runs under a latest context of height `H`; the
return value is exactly the error of the chain's `LoadLastState(H)`. -/
theorem C14_restart_consistency_below_two_pow_63 {σ : Type} (env : Runtime.Env σ)
    (self : Runtime.Polaris) (s : σ) (cms H : Nat) (hH : H < 2 ^ 63) :
    (Runtime.lastStateContext cms H).multiStore = cms ∧
    (Runtime.lastStateContext cms H).blockHeight = (H : Int) ∧
    (Runtime.lastStateContext cms H).gasMeter = NewInfiniteGasMeter ∧
    (Runtime.lastStateContext cms H).blockGasMeter = NewInfiniteGasMeter ∧
    (self.LoadLastState env s cms H).trace =
      [Runtime.RuntimeCall.SetLatestQueryContext (Runtime.lastStateContext cms H),
       Runtime.RuntimeCall.PrimePlugins (Runtime.lastStateContext cms H),
       Runtime.RuntimeCall.LoadLastState H] ∧
    (self.LoadLastState env s cms H).result =
      Outcome.returned (env.LoadLastState
        (env.PrimePlugins
          (env.SetLatestQueryContext s (env.Blockchain self.ExecutionLayer)
            (Runtime.lastStateContext cms H))
          (env.Blockchain self.ExecutionLayer) (Runtime.lastStateContext cms H))
        (env.Blockchain self.ExecutionLayer) H).2 ∧
    (self.LoadLastState env s cms H).world =
      (env.LoadLastState
        (env.PrimePlugins
          (env.SetLatestQueryContext s (env.Blockchain self.ExecutionLayer)
            (Runtime.lastStateContext cms H))
          (env.Blockchain self.ExecutionLayer) (Runtime.lastStateContext cms H))
        (env.Blockchain self.ExecutionLayer) H).1 ∧
    (∀ latest : σ → Option Context,
      (∀ s0 bc c, latest (env.SetLatestQueryContext s0 bc c) = some c) →
      (∀ s0 bc c, latest (env.PrimePlugins s0 bc c) = latest s0) →
      ∃ c, latest (env.PrimePlugins
          (env.SetLatestQueryContext s (env.Blockchain self.ExecutionLayer)
            (Runtime.lastStateContext cms H))
          (env.Blockchain self.ExecutionLayer) (Runtime.lastStateContext cms H)) = some c ∧
        c.blockHeight = (H : Int) ∧ c.multiStore = cms) := by
  have hheight : (Runtime.lastStateContext cms H).blockHeight = (H : Int) :=
    int64OfUint64_of_lt H hH
  refine ⟨rfl, hheight, rfl, rfl, rfl, rfl, rfl, ?_⟩
  intro latest hset hprime
  exact ⟨Runtime.lastStateContext cms H, by rw [hprime, hset], hheight, rfl⟩

/-- C14 (amended) at a concrete restart: store `77` persisted at height `42`. -/
theorem C14_restart_consistency_below_two_pow_63_witness :
    (Runtime.sampleRuntime.LoadLastState Runtime.sampleEnv Runtime.sampleRuntimeWorld 77
      42).result = Outcome.returned none ∧
    (∃ c, (Runtime.sampleRuntime.LoadLastState Runtime.sampleEnv Runtime.sampleRuntimeWorld 77
        42).world.loadedUnder = some c ∧ c.blockHeight = 42 ∧ c.multiStore = 77) ∧
    (Runtime.sampleRuntime.LoadLastState Runtime.sampleEnv Runtime.sampleRuntimeWorld 77
      42).world.loadedAt = some 42 := by
  have h := C14_restart_consistency_below_two_pow_63 Runtime.sampleEnv Runtime.sampleRuntime
    Runtime.sampleRuntimeWorld 77 42 (by decide)
  obtain ⟨c, hc, hh, hm⟩ := h.2.2.2.2.2.2.2 (fun w => w.latest) (fun _ _ _ => rfl)
    (fun _ _ _ => rfl)
  exact ⟨h.2.2.2.2.2.1, ⟨c, hc, hh, hm⟩, rfl⟩

end Polaris
